import Mathlib

/-!
# Verification development for the `gi` GUI toolkit excerpt

Shallow embedding of

* `alignhorizontal_string.go` : the generated `AlignHorizontal` stringer,
* `gi/stylefuncs.go`          : the property-driven style setters,
* `giv/mapviewinline.go`      : the inline map editor's `ConfigParts` / `SetMap`,
* `oswin/driver/windriver/windriver.go` : the driver's `Main`.

Go values of dynamic type (`interface{}`) are the inductive `Iface`; pointers that may
be nil are `Par`; a run-time panic is `none`.
-/

set_option autoImplicit false
set_option linter.unusedVariables false

namespace gi

/-! ## alignhorizontal_string.go -/

/-- Go `const _AlignHorizontal_name`. -/
def _AlignHorizontal_name : String := "AlignLeftAlignHCenterAlignRightAlignJustify"

/-- Go `var _AlignHorizontal_index = [...]uint8{0, 9, 21, 31, 43}`. -/
def _AlignHorizontal_index : List Nat := [0, 9, 21, 31, 43]

/-- Go string slicing `s[lo:hi]`; `none` is the run-time panic for `lo > hi` or
`hi > len(s)`.  The sliced constant is ASCII, so bytes and characters coincide. -/
def goSlice (s : String) (lo hi : Nat) : Option String :=
  if lo ≤ hi ∧ hi ≤ s.length then some (String.mk ((s.toList.drop lo).take (hi - lo))) else none

/-- Go array indexing `a[i]` with an integer index; `none` is the out-of-range panic. -/
def goIndex (a : List Nat) (i : Int) : Option Nat :=
  if 0 ≤ i then a.get? i.toNat else none

/-- Go `strconv.FormatInt(i, 10)`: the decimal digits of `i`, with a leading `-` when
negative. -/
def FormatInt10 (i : Int) : String :=
  match i with
  | Int.ofNat n => String.mk (Nat.toDigits 10 n)
  | Int.negSucc n => "-" ++ String.mk (Nat.toDigits 10 (n + 1))

/-- Go `func (i AlignHorizontal) String() string`; `none` would be an index or slice
panic. -/
def AlignHorizontal.String (i : Int) : Option String :=
  if i < 0 ∨ i ≥ ((_AlignHorizontal_index.length : Int) - 1) then
    some ("AlignHorizontal(" ++ FormatInt10 i ++ ")")
  else
    match goIndex _AlignHorizontal_index i, goIndex _AlignHorizontal_index (i + 1) with
    | some lo, some hi => goSlice _AlignHorizontal_name lo hi
    | _, _ => none

/-- The loop of `StringToAlignHorizontal`, started at index `i`, with `fuel` bounding
the remaining iterations.  The result is `(value, error)`; the outer `none` is a
panic. -/
def StringToAlignHorizontal.loop (s : String) : Nat → Nat → Option (Int × Option String)
  | 0, _ => none
  | fuel + 1, i =>
    if i < _AlignHorizontal_index.length - 1 then
      match goIndex _AlignHorizontal_index i, goIndex _AlignHorizontal_index (i + 1) with
      | some lo, some hi =>
        match goSlice _AlignHorizontal_name lo hi with
        | some nm =>
          if s = nm then some ((i : Int), none)
          else StringToAlignHorizontal.loop s fuel (i + 1)
        | none => none
      | _, _ => none
    else
      some (0, some ("String " ++ s ++ " is not a valid option for type AlignHorizontal"))

/-- Go `func StringToAlignHorizontal(s string) (AlignHorizontal, error)`. -/
def StringToAlignHorizontal (s : String) : Option (Int × Option String) :=
  StringToAlignHorizontal.loop s (_AlignHorizontal_index.length + 1) 0

/-! ## Values shared by the style code

The packages `units`, `kit`, `image/color` and the declarations of the style structs are
not part of the excerpt.  Their types are modelled by the fields and constants the
excerpt uses; their functions are the fields of `Env`. -/

/-- A `float32`, by its IEEE-754 bit pattern.  The excerpt only assigns literals and
copies such values. -/
structure F32 where
  bits : Nat
  deriving DecidableEq, Repr

instance : OfNat F32 0 := ⟨⟨0x00000000⟩⟩
instance : OfNat F32 1 := ⟨⟨0x3F800000⟩⟩
instance : OfNat F32 2 := ⟨⟨0x40000000⟩⟩
instance : OfNat F32 12 := ⟨⟨0x41400000⟩⟩

namespace units

/-- Go `units.Unit`: the units the excerpt names, every other one being `other n`. -/
inductive Unit where
  | Px
  | Pt
  | Ex
  | other (n : Nat)
  deriving DecidableEq, Repr

/-- Go `units.Value`: a number, its unit and the computed dots. -/
structure Value where
  Val : F32
  Un : Unit
  Dots : F32
  deriving DecidableEq, Repr

/-- Go `units.Context`: what `ToDots` reads to convert a unit to dots. -/
structure Context where
  id : Nat
  deriving DecidableEq, Repr

end units

namespace color

/-- Go `image/color.Color` values handed to `Color.SetColor`. -/
inductive Color where
  | Black
  | other (n : Nat)
  deriving DecidableEq, Repr

end color

/-- Go `gi.Color`, kept as an uninterpreted code. -/
structure Color where
  code : Nat
  deriving DecidableEq, Repr

/-- Go `gi.ColorSpec`, kept as an uninterpreted code. -/
structure ColorSpec where
  code : Nat
  deriving DecidableEq, Repr

/-- The zero value `ColorSpec{}`. -/
def ColorSpec.zero : ColorSpec := ⟨0⟩

/-- Go `*Viewport2D`, only ever passed on. -/
structure Viewport2D where
  id : Nat
  deriving DecidableEq, Repr

/-- The enum types that appear in the type switches of the setters. -/
inductive EnumType where
  | Align
  | Overflow
  | FontStyles
  | FontWeights
  | FontStretch
  | FontVariants
  | TextDecorations
  | BaselineShifts
  | TextAnchors
  | WhiteSpaces
  | UnicodeBidi
  | TextDirections
  | BorderDrawStyle
  deriving DecidableEq, Repr

/-- A Go value of dynamic type (`interface{}`): the dynamic types the setters
distinguish, and `other` for every remaining one. -/
inductive Iface where
  | nil
  | str (s : String)
  | bool (b : Bool)
  | int (n : Int)
  | float (f : F32)
  | enum (t : EnumType) (n : Int)
  | value (v : units.Value)
  | color (c : Color)
  | colorSpec (c : ColorSpec)
  | other (tag : Nat)
  deriving DecidableEq, Repr

/-- The `par interface{}` argument of a setter: the nil interface, an interface holding
a nil pointer, or an interface holding a pointer to an object. -/
inductive Par (σ : Type) where
  | nilIface
  | nilPtr
  | ptr (p : σ)
  deriving DecidableEq, Repr

/-- Go `kit.IfaceIsNil`: true for the nil interface and for a nil pointer inside an
interface. -/
def IfaceIsNil {σ : Type} (par : Par σ) : Bool :=
  match par with
  | .nilIface => true
  | .nilPtr => true
  | .ptr _ => false

/-- Go `LayoutStyle`, by the fields the setters assign. -/
structure LayoutStyle where
  ZIndex : Int
  AlignH : Int
  AlignV : Int
  PosX : units.Value
  PosY : units.Value
  Width : units.Value
  Height : units.Value
  MaxWidth : units.Value
  MaxHeight : units.Value
  MinWidth : units.Value
  MinHeight : units.Value
  Margin : units.Value
  Padding : units.Value
  Overflow : Int
  Columns : Int
  Row : Int
  Col : Int
  RowSpan : Int
  ColSpan : Int
  ScrollBarWidth : units.Value
  deriving DecidableEq, Repr

/-- Go `FontStyle`, by the fields the setters assign. -/
structure FontStyle where
  Color : Color
  BgColor : ColorSpec
  Opacity : F32
  Size : units.Value
  Family : String
  Style : Int
  Weight : Int
  Stretch : Int
  Variant : Int
  Deco : Int
  Shift : Int
  deriving DecidableEq, Repr

/-- Go `TextStyle`, by the fields the setters assign. -/
structure TextStyle where
  Align : Int
  Anchor : Int
  LetterSpacing : units.Value
  WordSpacing : units.Value
  LineHeight : F32
  WhiteSpace : Int
  UnicodeBidi : Int
  Direction : Int
  WritingMode : Int
  OrientationVert : F32
  OrientationHoriz : F32
  Indent : units.Value
  ParaSpacing : units.Value
  TabSize : Int
  deriving DecidableEq, Repr

/-- Go `BorderStyle` (also the type of `Style.Outline`). -/
structure BorderStyle where
  Style : Int
  Width : units.Value
  Radius : units.Value
  Color : Color
  deriving DecidableEq, Repr

/-- Go `ShadowStyle`. -/
structure ShadowStyle where
  HOffset : units.Value
  VOffset : units.Value
  Blur : units.Value
  Spread : units.Value
  Color : Color
  Inset : Bool
  deriving DecidableEq, Repr

/-- Go `Style`, by the fields the setters assign. -/
structure Style where
  Display : Bool
  Visible : Bool
  Inactive : Bool
  PointerEvents : Bool
  Layout : LayoutStyle
  Font : FontStyle
  Text : TextStyle
  Border : BorderStyle
  Outline : BorderStyle
  BoxShadow : ShadowStyle
  deriving DecidableEq, Repr

/-- What `StyleSetError` reports, one entry per call: the key and the value. -/
abbrev Log := List (String × Iface)

/-- The functions and constants of the packages outside the excerpt. -/
structure Env where
  /-- Go `kit.ToBool`: `none` is `ok == false`. -/
  ToBool : Iface → Option Bool
  /-- Go `kit.ToInt`: `none` is `ok == false`. -/
  ToInt : Iface → Option Int
  /-- Go `kit.ToFloat32`: `none` is `ok == false`. -/
  ToFloat32 : Iface → Option F32
  /-- Go `kit.ToString`. -/
  ToString : Iface → String
  /-- Go `kit.Enums.SetAnyEnumIfaceFromString(&field, str)`: the field afterwards, from
  the enum type, the field before and the string. -/
  SetAnyEnumIfaceFromString : EnumType → Int → String → Int
  /-- The conversion `T(iv)` of an `int64` to the enum type `T`. -/
  EnumOfInt64 : EnumType → Int → Int
  /-- Go `units.Value.SetIFace(val, key)`: the value afterwards. -/
  SetIFace : units.Value → Iface → String → units.Value
  /-- Go `units.Value.Set(val, un)`: the value afterwards. -/
  Set : units.Value → F32 → units.Unit → units.Value
  /-- Go `units.NewPt`. -/
  NewPt : F32 → units.Value
  /-- Go `units.Value.ToDots(uc)`: the value afterwards. -/
  ToDots : units.Context → units.Value → units.Value
  /-- Go `Color.SetIFace(val, vp, key)`: the colour afterwards. -/
  ColorSetIFace : Color → Iface → Option Viewport2D → String → Color
  /-- Go `ColorSpec.SetIFace(val, vp, key)`: the colour spec afterwards. -/
  ColorSpecSetIFace : ColorSpec → Iface → Option Viewport2D → String → ColorSpec
  /-- Go `Color.SetColor(ci)`: the colour afterwards. -/
  SetColor : Color → color.Color → Color
  /-- Go `FontSizePoints`: the table of named font sizes. -/
  FontSizePoints : String → Option F32
  AlignLeft : Int
  AlignMiddle : Int
  OverflowAuto : Int
  FontNormal : Int
  WeightNormal : Int
  FontStrNormal : Int
  FontVarNormal : Int
  DecoNone : Int
  ShiftBaseline : Int
  AnchorStart : Int
  WhiteSpaceNormal : Int
  BidiNormal : Int
  LRTB : Int
  BorderSolid : Int
  BorderNone : Int

/-- The conversion `int(iv)` of an `int64`; `int` is 64 bits wide. -/
def goInt (iv : Int) : Int := iv

/-! ## gi/stylefuncs.go -/

/-- Go `StyleInhInit` detects the style values of "inherit" and "initial". -/
def StyleInhInit {σ : Type} (val : Iface) (par : Par σ) : Bool × Bool :=
  match val with
  | .str str =>
    if str = "inherit" then (!IfaceIsNil par, false)
    else if str = "initial" then (false, true)
    else (false, false)
  | _ => (false, false)

/-- Go `StyleSetError` reports that it cannot set the property of the given key from the
given value. -/
def StyleSetError (key : String) (val : Iface) : Log := [(key, val)]

/-- Go `type StyleFunc`: a setter gets the object, the key, the value, the parent and the
viewport; it gives the object afterwards and its error reports, or `none` when it
panics. -/
abbrev StyleFunc (σ : Type) :=
  Env → σ → String → Iface → Par σ → Option Viewport2D → Option (σ × Log)

/-- Go `var StyleStyleFuncs`: functions for styling the Style object itself. -/
def StyleStyleFuncs : List (String × StyleFunc Style) := [
  ("display", fun env s key val par _vp =>
    let (inh, init) := StyleInhInit val par
    if inh || init then
      if inh then
        match par with
        | .ptr p => some ({ s with Display := p.Display }, [])
        | _ => none
      else if init then
        some ({ s with Display := true }, [])
      else some (s, [])
    else
      match env.ToBool val with
      | some bv => some ({ s with Display := bv }, [])
      | none => some (s, [])),
  ("visible", fun env s key val par _vp =>
    let (inh, init) := StyleInhInit val par
    if inh || init then
      if inh then
        match par with
        | .ptr p => some ({ s with Visible := p.Visible }, [])
        | _ => none
      else if init then
        some ({ s with Visible := false }, [])
      else some (s, [])
    else
      match env.ToBool val with
      | some bv => some ({ s with Visible := bv }, [])
      | none => some (s, [])),
  ("inactive", fun env s key val par _vp =>
    let (inh, init) := StyleInhInit val par
    if inh || init then
      if inh then
        match par with
        | .ptr p => some ({ s with Inactive := p.Inactive }, [])
        | _ => none
      else if init then
        some ({ s with Inactive := false }, [])
      else some (s, [])
    else
      match env.ToBool val with
      | some bv => some ({ s with Inactive := bv }, [])
      | none => some (s, [])),
  ("pointer-events", fun env s key val par _vp =>
    let (inh, init) := StyleInhInit val par
    if inh || init then
      if inh then
        match par with
        | .ptr p => some ({ s with PointerEvents := p.PointerEvents }, [])
        | _ => none
      else if init then
        some ({ s with PointerEvents := true }, [])
      else some (s, [])
    else
      match env.ToBool val with
      | some bv => some ({ s with PointerEvents := bv }, [])
      | none => some (s, []))]

/-- Go `var StyleLayoutFuncs`: functions for styling the LayoutStyle object. -/
def StyleLayoutFuncs : List (String × StyleFunc LayoutStyle) := [
  ("z-index", fun env ly key val par _vp =>
    let (inh, init) := StyleInhInit val par
    if inh || init then
      if inh then
        match par with
        | .ptr p => some ({ ly with ZIndex := p.ZIndex }, [])
        | _ => none
      else if init then
        some ({ ly with ZIndex := 0 }, [])
      else some (ly, [])
    else
      match env.ToInt val with
      | some iv => some ({ ly with ZIndex := goInt iv }, [])
      | none => some (ly, [])),
  ("horizontal-align", fun env ly key val par _vp =>
    let (inh, init) := StyleInhInit val par
    if inh || init then
      if inh then
        match par with
        | .ptr p => some ({ ly with AlignH := p.AlignH }, [])
        | _ => none
      else if init then
        some ({ ly with AlignH := env.AlignLeft }, [])
      else some (ly, [])
    else
      match val with
      | .str vt =>
        some ({ ly with AlignH := env.SetAnyEnumIfaceFromString .Align ly.AlignH vt }, [])
      | .enum .Align vt => some ({ ly with AlignH := vt }, [])
      | _ =>
        match env.ToInt val with
        | some iv => some ({ ly with AlignH := env.EnumOfInt64 .Align iv }, [])
        | none => some (ly, StyleSetError key val)),
  ("vertical-align", fun env ly key val par _vp =>
    let (inh, init) := StyleInhInit val par
    if inh || init then
      if inh then
        match par with
        | .ptr p => some ({ ly with AlignV := p.AlignV }, [])
        | _ => none
      else if init then
        some ({ ly with AlignV := env.AlignMiddle }, [])
      else some (ly, [])
    else
      match val with
      | .str vt =>
        some ({ ly with AlignV := env.SetAnyEnumIfaceFromString .Align ly.AlignV vt }, [])
      | .enum .Align vt => some ({ ly with AlignV := vt }, [])
      | _ =>
        match env.ToInt val with
        | some iv => some ({ ly with AlignV := env.EnumOfInt64 .Align iv }, [])
        | none => some (ly, StyleSetError key val)),
  ("x", fun env ly key val par _vp =>
    let (inh, init) := StyleInhInit val par
    if inh || init then
      if inh then
        match par with
        | .ptr p => some ({ ly with PosX := p.PosX }, [])
        | _ => none
      else if init then
        some ({ ly with PosX := { ly.PosX with Val := 0 } }, [])
      else some (ly, [])
    else
      some ({ ly with PosX := env.SetIFace ly.PosX val key }, [])),
  ("y", fun env ly key val par _vp =>
    let (inh, init) := StyleInhInit val par
    if inh || init then
      if inh then
        match par with
        | .ptr p => some ({ ly with PosY := p.PosY }, [])
        | _ => none
      else if init then
        some ({ ly with PosY := { ly.PosY with Val := 0 } }, [])
      else some (ly, [])
    else
      some ({ ly with PosY := env.SetIFace ly.PosY val key }, [])),
  ("width", fun env ly key val par _vp =>
    let (inh, init) := StyleInhInit val par
    if inh || init then
      if inh then
        match par with
        | .ptr p => some ({ ly with Width := p.Width }, [])
        | _ => none
      else if init then
        some ({ ly with Width := { ly.Width with Val := 0 } }, [])
      else some (ly, [])
    else
      some ({ ly with Width := env.SetIFace ly.Width val key }, [])),
  ("height", fun env ly key val par _vp =>
    let (inh, init) := StyleInhInit val par
    if inh || init then
      if inh then
        match par with
        | .ptr p => some ({ ly with Height := p.Height }, [])
        | _ => none
      else if init then
        some ({ ly with Height := { ly.Height with Val := 0 } }, [])
      else some (ly, [])
    else
      some ({ ly with Height := env.SetIFace ly.Height val key }, [])),
  ("max-width", fun env ly key val par _vp =>
    let (inh, init) := StyleInhInit val par
    if inh || init then
      if inh then
        match par with
        | .ptr p => some ({ ly with MaxWidth := p.MaxWidth }, [])
        | _ => none
      else if init then
        some ({ ly with MaxWidth := { ly.MaxWidth with Val := 0 } }, [])
      else some (ly, [])
    else
      some ({ ly with MaxWidth := env.SetIFace ly.MaxWidth val key }, [])),
  ("max-height", fun env ly key val par _vp =>
    let (inh, init) := StyleInhInit val par
    if inh || init then
      if inh then
        match par with
        | .ptr p => some ({ ly with MaxHeight := p.MaxHeight }, [])
        | _ => none
      else if init then
        some ({ ly with MaxHeight := { ly.MaxHeight with Val := 0 } }, [])
      else some (ly, [])
    else
      some ({ ly with MaxHeight := env.SetIFace ly.MaxHeight val key }, [])),
  ("min-width", fun env ly key val par _vp =>
    let (inh, init) := StyleInhInit val par
    if inh || init then
      if inh then
        match par with
        | .ptr p => some ({ ly with MinWidth := p.MinWidth }, [])
        | _ => none
      else if init then
        some ({ ly with MinWidth := env.Set ly.MinWidth 2 units.Unit.Px }, [])
      else some (ly, [])
    else
      some ({ ly with MinWidth := env.SetIFace ly.MinWidth val key }, [])),
  ("min-height", fun env ly key val par _vp =>
    let (inh, init) := StyleInhInit val par
    if inh || init then
      if inh then
        match par with
        | .ptr p => some ({ ly with MinHeight := p.MinHeight }, [])
        | _ => none
      else if init then
        some ({ ly with MinHeight := env.Set ly.MinHeight 2 units.Unit.Px }, [])
      else some (ly, [])
    else
      some ({ ly with MinHeight := env.SetIFace ly.MinHeight val key }, [])),
  ("margin", fun env ly key val par _vp =>
    let (inh, init) := StyleInhInit val par
    if inh || init then
      if inh then
        match par with
        | .ptr p => some ({ ly with Margin := p.Margin }, [])
        | _ => none
      else if init then
        some ({ ly with Margin := { ly.Margin with Val := 0 } }, [])
      else some (ly, [])
    else
      some ({ ly with Margin := env.SetIFace ly.Margin val key }, [])),
  ("padding", fun env ly key val par _vp =>
    let (inh, init) := StyleInhInit val par
    if inh || init then
      if inh then
        match par with
        | .ptr p => some ({ ly with Padding := p.Padding }, [])
        | _ => none
      else if init then
        some ({ ly with Padding := { ly.Padding with Val := 0 } }, [])
      else some (ly, [])
    else
      some ({ ly with Padding := env.SetIFace ly.Padding val key }, [])),
  ("overflow", fun env ly key val par _vp =>
    let (inh, init) := StyleInhInit val par
    if inh || init then
      if inh then
        match par with
        | .ptr p => some ({ ly with Overflow := p.Overflow }, [])
        | _ => none
      else if init then
        some ({ ly with Overflow := env.OverflowAuto }, [])
      else some (ly, [])
    else
      match val with
      | .str vt =>
        some ({ ly with Overflow := env.SetAnyEnumIfaceFromString .Overflow ly.Overflow vt }, [])
      | .enum .Overflow vt => some ({ ly with Overflow := vt }, [])
      | _ =>
        match env.ToInt val with
        | some iv => some ({ ly with Overflow := env.EnumOfInt64 .Overflow iv }, [])
        | none => some (ly, StyleSetError key val)),
  ("columns", fun env ly key val par _vp =>
    let (inh, init) := StyleInhInit val par
    if inh || init then
      if inh then
        match par with
        | .ptr p => some ({ ly with Columns := p.Columns }, [])
        | _ => none
      else if init then
        some ({ ly with Columns := 0 }, [])
      else some (ly, [])
    else
      match env.ToInt val with
      | some iv => some ({ ly with Columns := goInt iv }, [])
      | none => some (ly, [])),
  ("row", fun env ly key val par _vp =>
    let (inh, init) := StyleInhInit val par
    if inh || init then
      if inh then
        match par with
        | .ptr p => some ({ ly with Row := p.Row }, [])
        | _ => none
      else if init then
        some ({ ly with Row := 0 }, [])
      else some (ly, [])
    else
      match env.ToInt val with
      | some iv => some ({ ly with Row := goInt iv }, [])
      | none => some (ly, [])),
  ("col", fun env ly key val par _vp =>
    let (inh, init) := StyleInhInit val par
    if inh || init then
      if inh then
        match par with
        | .ptr p => some ({ ly with Col := p.Col }, [])
        | _ => none
      else if init then
        some ({ ly with Col := 0 }, [])
      else some (ly, [])
    else
      match env.ToInt val with
      | some iv => some ({ ly with Col := goInt iv }, [])
      | none => some (ly, [])),
  ("row-span", fun env ly key val par _vp =>
    let (inh, init) := StyleInhInit val par
    if inh || init then
      if inh then
        match par with
        | .ptr p => some ({ ly with RowSpan := p.RowSpan }, [])
        | _ => none
      else if init then
        some ({ ly with RowSpan := 0 }, [])
      else some (ly, [])
    else
      match env.ToInt val with
      | some iv => some ({ ly with RowSpan := goInt iv }, [])
      | none => some (ly, [])),
  ("col-span", fun env ly key val par _vp =>
    let (inh, init) := StyleInhInit val par
    if inh || init then
      if inh then
        match par with
        | .ptr p => some ({ ly with ColSpan := p.ColSpan }, [])
        | _ => none
      else if init then
        some ({ ly with ColSpan := 0 }, [])
      else some (ly, [])
    else
      match env.ToInt val with
      | some iv => some ({ ly with ColSpan := goInt iv }, [])
      | none => some (ly, [])),
  ("scrollbar-width", fun env ly key val par _vp =>
    let (inh, init) := StyleInhInit val par
    if inh || init then
      if inh then
        match par with
        | .ptr p => some ({ ly with ScrollBarWidth := p.ScrollBarWidth }, [])
        | _ => none
      else if init then
        some ({ ly with ScrollBarWidth := { ly.ScrollBarWidth with Val := 0 } }, [])
      else some (ly, [])
    else
      some ({ ly with ScrollBarWidth := env.SetIFace ly.ScrollBarWidth val key }, []))]

/-- Go `var StyleFontFuncs`: functions for styling the FontStyle object. -/
def StyleFontFuncs : List (String × StyleFunc FontStyle) := [
  ("color", fun env fs key val par vp =>
    let (inh, init) := StyleInhInit val par
    if inh || init then
      if inh then
        match par with
        | .ptr p => some ({ fs with Color := p.Color }, [])
        | _ => none
      else if init then
        some ({ fs with Color := env.SetColor fs.Color color.Color.Black }, [])
      else some (fs, [])
    else
      some ({ fs with Color := env.ColorSetIFace fs.Color val vp key }, [])),
  ("background-color", fun env fs key val par vp =>
    let (inh, init) := StyleInhInit val par
    if inh || init then
      if inh then
        match par with
        | .ptr p => some ({ fs with BgColor := p.BgColor }, [])
        | _ => none
      else if init then
        some ({ fs with BgColor := ColorSpec.zero }, [])
      else some (fs, [])
    else
      some ({ fs with BgColor := env.ColorSpecSetIFace fs.BgColor val vp key }, [])),
  ("opacity", fun env fs key val par _vp =>
    let (inh, init) := StyleInhInit val par
    if inh || init then
      if inh then
        match par with
        | .ptr p => some ({ fs with Opacity := p.Opacity }, [])
        | _ => none
      else if init then
        some ({ fs with Opacity := 1 }, [])
      else some (fs, [])
    else
      match env.ToFloat32 val with
      | some iv => some ({ fs with Opacity := iv }, [])
      | none => some (fs, [])),
  ("font-size", fun env fs key val par _vp =>
    let (inh, init) := StyleInhInit val par
    if inh || init then
      if inh then
        match par with
        | .ptr p => some ({ fs with Size := p.Size }, [])
        | _ => none
      else if init then
        some ({ fs with Size := env.Set fs.Size 12 units.Unit.Pt }, [])
      else some (fs, [])
    else
      match val with
      | .str vt =>
        match env.FontSizePoints vt with
        | some psz => some ({ fs with Size := env.NewPt psz }, [])
        | none => some ({ fs with Size := env.SetIFace fs.Size val key }, [])
      | _ => some ({ fs with Size := env.SetIFace fs.Size val key }, [])),
  ("font-family", fun env fs key val par _vp =>
    let (inh, init) := StyleInhInit val par
    if inh || init then
      if inh then
        match par with
        | .ptr p => some ({ fs with Family := p.Family }, [])
        | _ => none
      else if init then
        some ({ fs with Family := "" }, [])
      else some (fs, [])
    else
      some ({ fs with Family := env.ToString val }, [])),
  ("font-style", fun env fs key val par _vp =>
    let (inh, init) := StyleInhInit val par
    if inh || init then
      if inh then
        match par with
        | .ptr p => some ({ fs with Style := p.Style }, [])
        | _ => none
      else if init then
        some ({ fs with Style := env.FontNormal }, [])
      else some (fs, [])
    else
      match val with
      | .str vt =>
        some ({ fs with Style := env.SetAnyEnumIfaceFromString .FontStyles fs.Style vt }, [])
      | .enum .FontStyles vt => some ({ fs with Style := vt }, [])
      | _ =>
        match env.ToInt val with
        | some iv => some ({ fs with Style := env.EnumOfInt64 .FontStyles iv }, [])
        | none => some (fs, StyleSetError key val)),
  ("font-weight", fun env fs key val par _vp =>
    let (inh, init) := StyleInhInit val par
    if inh || init then
      if inh then
        match par with
        | .ptr p => some ({ fs with Weight := p.Weight }, [])
        | _ => none
      else if init then
        some ({ fs with Weight := env.WeightNormal }, [])
      else some (fs, [])
    else
      match val with
      | .str vt =>
        some ({ fs with Weight := env.SetAnyEnumIfaceFromString .FontWeights fs.Weight vt }, [])
      | .enum .FontWeights vt => some ({ fs with Weight := vt }, [])
      | _ =>
        match env.ToInt val with
        | some iv => some ({ fs with Weight := env.EnumOfInt64 .FontWeights iv }, [])
        | none => some (fs, StyleSetError key val)),
  ("font-stretch", fun env fs key val par _vp =>
    let (inh, init) := StyleInhInit val par
    if inh || init then
      if inh then
        match par with
        | .ptr p => some ({ fs with Stretch := p.Stretch }, [])
        | _ => none
      else if init then
        some ({ fs with Stretch := env.FontStrNormal }, [])
      else some (fs, [])
    else
      match val with
      | .str vt =>
        some ({ fs with Stretch := env.SetAnyEnumIfaceFromString .FontStretch fs.Stretch vt }, [])
      | .enum .FontStretch vt => some ({ fs with Stretch := vt }, [])
      | _ =>
        match env.ToInt val with
        | some iv => some ({ fs with Stretch := env.EnumOfInt64 .FontStretch iv }, [])
        | none => some (fs, StyleSetError key val)),
  ("font-variant", fun env fs key val par _vp =>
    let (inh, init) := StyleInhInit val par
    if inh || init then
      if inh then
        match par with
        | .ptr p => some ({ fs with Variant := p.Variant }, [])
        | _ => none
      else if init then
        some ({ fs with Variant := env.FontVarNormal }, [])
      else some (fs, [])
    else
      match val with
      | .str vt =>
        some ({ fs with Variant := env.SetAnyEnumIfaceFromString .FontVariants fs.Variant vt }, [])
      | .enum .FontVariants vt => some ({ fs with Variant := vt }, [])
      | _ =>
        match env.ToInt val with
        | some iv => some ({ fs with Variant := env.EnumOfInt64 .FontVariants iv }, [])
        | none => some (fs, StyleSetError key val)),
  ("text-decoration", fun env fs key val par _vp =>
    let (inh, init) := StyleInhInit val par
    if inh || init then
      if inh then
        match par with
        | .ptr p => some ({ fs with Deco := p.Deco }, [])
        | _ => none
      else if init then
        some ({ fs with Deco := env.DecoNone }, [])
      else some (fs, [])
    else
      match val with
      | .str vt =>
        if vt = "none" then
          some ({ fs with Deco := env.DecoNone }, [])
        else
          some ({ fs with Deco := env.SetAnyEnumIfaceFromString .TextDecorations fs.Deco vt }, [])
      | .enum .TextDecorations vt => some ({ fs with Deco := vt }, [])
      | _ =>
        match env.ToInt val with
        | some iv => some ({ fs with Deco := env.EnumOfInt64 .TextDecorations iv }, [])
        | none => some (fs, StyleSetError key val)),
  ("baseline-shift", fun env fs key val par _vp =>
    let (inh, init) := StyleInhInit val par
    if inh || init then
      if inh then
        match par with
        | .ptr p => some ({ fs with Shift := p.Shift }, [])
        | _ => none
      else if init then
        some ({ fs with Shift := env.ShiftBaseline }, [])
      else some (fs, [])
    else
      match val with
      | .str vt =>
        some ({ fs with Shift := env.SetAnyEnumIfaceFromString .BaselineShifts fs.Shift vt }, [])
      | .enum .BaselineShifts vt => some ({ fs with Shift := vt }, [])
      | _ =>
        match env.ToInt val with
        | some iv => some ({ fs with Shift := env.EnumOfInt64 .BaselineShifts iv }, [])
        | none => some (fs, StyleSetError key val))]

/-- Go `var StyleTextFuncs`: functions for styling the TextStyle object. -/
def StyleTextFuncs : List (String × StyleFunc TextStyle) := [
  ("text-align", fun env ts key val par _vp =>
    let (inh, init) := StyleInhInit val par
    if inh || init then
      if inh then
        match par with
        | .ptr p => some ({ ts with Align := p.Align }, [])
        | _ => none
      else if init then
        some ({ ts with Align := env.AlignLeft }, [])
      else some (ts, [])
    else
      match val with
      | .str vt =>
        some ({ ts with Align := env.SetAnyEnumIfaceFromString .Align ts.Align vt }, [])
      | .enum .Align vt => some ({ ts with Align := vt }, [])
      | _ =>
        match env.ToInt val with
        | some iv => some ({ ts with Align := env.EnumOfInt64 .Align iv }, [])
        | none => some (ts, StyleSetError key val)),
  ("text-anchor", fun env ts key val par _vp =>
    let (inh, init) := StyleInhInit val par
    if inh || init then
      if inh then
        match par with
        | .ptr p => some ({ ts with Anchor := p.Anchor }, [])
        | _ => none
      else if init then
        some ({ ts with Anchor := env.AnchorStart }, [])
      else some (ts, [])
    else
      match val with
      | .str vt =>
        some ({ ts with Anchor := env.SetAnyEnumIfaceFromString .TextAnchors ts.Anchor vt }, [])
      | .enum .TextAnchors vt => some ({ ts with Anchor := vt }, [])
      | _ =>
        match env.ToInt val with
        | some iv => some ({ ts with Anchor := env.EnumOfInt64 .TextAnchors iv }, [])
        | none => some (ts, StyleSetError key val)),
  ("letter-spacing", fun env ts key val par _vp =>
    let (inh, init) := StyleInhInit val par
    if inh || init then
      if inh then
        match par with
        | .ptr p => some ({ ts with LetterSpacing := p.LetterSpacing }, [])
        | _ => none
      else if init then
        some ({ ts with LetterSpacing := { ts.LetterSpacing with Val := 0 } }, [])
      else some (ts, [])
    else
      some ({ ts with LetterSpacing := env.SetIFace ts.LetterSpacing val key }, [])),
  ("word-spacing", fun env ts key val par _vp =>
    let (inh, init) := StyleInhInit val par
    if inh || init then
      if inh then
        match par with
        | .ptr p => some ({ ts with WordSpacing := p.WordSpacing }, [])
        | _ => none
      else if init then
        some ({ ts with WordSpacing := { ts.WordSpacing with Val := 0 } }, [])
      else some (ts, [])
    else
      some ({ ts with WordSpacing := env.SetIFace ts.WordSpacing val key }, [])),
  ("line-height", fun env ts key val par _vp =>
    let (inh, init) := StyleInhInit val par
    if inh || init then
      if inh then
        match par with
        | .ptr p => some ({ ts with LineHeight := p.LineHeight }, [])
        | _ => none
      else if init then
        some ({ ts with LineHeight := 1 }, [])
      else some (ts, [])
    else
      match env.ToFloat32 val with
      | some iv => some ({ ts with LineHeight := iv }, [])
      | none => some (ts, [])),
  ("white-space", fun env ts key val par _vp =>
    let (inh, init) := StyleInhInit val par
    if inh || init then
      if inh then
        match par with
        | .ptr p => some ({ ts with WhiteSpace := p.WhiteSpace }, [])
        | _ => none
      else if init then
        some ({ ts with WhiteSpace := env.WhiteSpaceNormal }, [])
      else some (ts, [])
    else
      match val with
      | .str vt =>
        some ({ ts with WhiteSpace := env.SetAnyEnumIfaceFromString .WhiteSpaces ts.WhiteSpace vt }, [])
      | .enum .WhiteSpaces vt => some ({ ts with WhiteSpace := vt }, [])
      | _ =>
        match env.ToInt val with
        | some iv => some ({ ts with WhiteSpace := env.EnumOfInt64 .WhiteSpaces iv }, [])
        | none => some (ts, StyleSetError key val)),
  ("unicode-bidi", fun env ts key val par _vp =>
    let (inh, init) := StyleInhInit val par
    if inh || init then
      if inh then
        match par with
        | .ptr p => some ({ ts with UnicodeBidi := p.UnicodeBidi }, [])
        | _ => none
      else if init then
        some ({ ts with UnicodeBidi := env.BidiNormal }, [])
      else some (ts, [])
    else
      match val with
      | .str vt =>
        some ({ ts with UnicodeBidi := env.SetAnyEnumIfaceFromString .UnicodeBidi ts.UnicodeBidi vt }, [])
      | .enum .UnicodeBidi vt => some ({ ts with UnicodeBidi := vt }, [])
      | _ =>
        match env.ToInt val with
        | some iv => some ({ ts with UnicodeBidi := env.EnumOfInt64 .UnicodeBidi iv }, [])
        | none => some (ts, StyleSetError key val)),
  ("direction", fun env ts key val par _vp =>
    let (inh, init) := StyleInhInit val par
    if inh || init then
      if inh then
        match par with
        | .ptr p => some ({ ts with Direction := p.Direction }, [])
        | _ => none
      else if init then
        some ({ ts with Direction := env.LRTB }, [])
      else some (ts, [])
    else
      match val with
      | .str vt =>
        some ({ ts with Direction := env.SetAnyEnumIfaceFromString .TextDirections ts.Direction vt }, [])
      | .enum .TextDirections vt => some ({ ts with Direction := vt }, [])
      | _ =>
        match env.ToInt val with
        | some iv => some ({ ts with Direction := env.EnumOfInt64 .TextDirections iv }, [])
        | none => some (ts, StyleSetError key val)),
  ("writing-mode", fun env ts key val par _vp =>
    let (inh, init) := StyleInhInit val par
    if inh || init then
      if inh then
        match par with
        | .ptr p => some ({ ts with WritingMode := p.WritingMode }, [])
        | _ => none
      else if init then
        some ({ ts with WritingMode := env.LRTB }, [])
      else some (ts, [])
    else
      match val with
      | .str vt =>
        some ({ ts with WritingMode := env.SetAnyEnumIfaceFromString .TextDirections ts.WritingMode vt }, [])
      | .enum .TextDirections vt => some ({ ts with WritingMode := vt }, [])
      | _ =>
        match env.ToInt val with
        | some iv => some ({ ts with WritingMode := env.EnumOfInt64 .TextDirections iv }, [])
        | none => some (ts, StyleSetError key val)),
  ("glyph-orientation-vertical", fun env ts key val par _vp =>
    let (inh, init) := StyleInhInit val par
    if inh || init then
      if inh then
        match par with
        | .ptr p => some ({ ts with OrientationVert := p.OrientationVert }, [])
        | _ => none
      else if init then
        some ({ ts with OrientationVert := 1 }, [])
      else some (ts, [])
    else
      match env.ToFloat32 val with
      | some iv => some ({ ts with OrientationVert := iv }, [])
      | none => some (ts, [])),
  ("glyph-orientation-horizontal", fun env ts key val par _vp =>
    let (inh, init) := StyleInhInit val par
    if inh || init then
      if inh then
        match par with
        | .ptr p => some ({ ts with OrientationHoriz := p.OrientationHoriz }, [])
        | _ => none
      else if init then
        some ({ ts with OrientationHoriz := 1 }, [])
      else some (ts, [])
    else
      match env.ToFloat32 val with
      | some iv => some ({ ts with OrientationHoriz := iv }, [])
      | none => some (ts, [])),
  ("text-indent", fun env ts key val par _vp =>
    let (inh, init) := StyleInhInit val par
    if inh || init then
      if inh then
        match par with
        | .ptr p => some ({ ts with Indent := p.Indent }, [])
        | _ => none
      else if init then
        some ({ ts with Indent := { ts.Indent with Val := 0 } }, [])
      else some (ts, [])
    else
      some ({ ts with Indent := env.SetIFace ts.Indent val key }, [])),
  ("para-spacing", fun env ts key val par _vp =>
    let (inh, init) := StyleInhInit val par
    if inh || init then
      if inh then
        match par with
        | .ptr p => some ({ ts with ParaSpacing := p.ParaSpacing }, [])
        | _ => none
      else if init then
        some ({ ts with ParaSpacing := { ts.ParaSpacing with Val := 0 } }, [])
      else some (ts, [])
    else
      some ({ ts with ParaSpacing := env.SetIFace ts.ParaSpacing val key }, [])),
  ("tab-size", fun env ts key val par _vp =>
    let (inh, init) := StyleInhInit val par
    if inh || init then
      if inh then
        match par with
        | .ptr p => some ({ ts with TabSize := p.TabSize }, [])
        | _ => none
      else if init then
        some ({ ts with TabSize := 4 }, [])
      else some (ts, [])
    else
      match env.ToInt val with
      | some iv => some ({ ts with TabSize := goInt iv }, [])
      | none => some (ts, []))]

/-- Go `var StyleBorderFuncs`: functions for styling the BorderStyle object. -/
def StyleBorderFuncs : List (String × StyleFunc BorderStyle) := [
  ("border-style", fun env bs key val par _vp =>
    let (inh, init) := StyleInhInit val par
    if inh || init then
      if inh then
        match par with
        | .ptr p => some ({ bs with Style := p.Style }, [])
        | _ => none
      else if init then
        some ({ bs with Style := env.BorderSolid }, [])
      else some (bs, [])
    else
      match val with
      | .str vt =>
        some ({ bs with Style := env.SetAnyEnumIfaceFromString .BorderDrawStyle bs.Style vt }, [])
      | .enum .BorderDrawStyle vt => some ({ bs with Style := vt }, [])
      | _ =>
        match env.ToInt val with
        | some iv => some ({ bs with Style := env.EnumOfInt64 .BorderDrawStyle iv }, [])
        | none => some (bs, StyleSetError key val)),
  ("border-width", fun env bs key val par _vp =>
    let (inh, init) := StyleInhInit val par
    if inh || init then
      if inh then
        match par with
        | .ptr p => some ({ bs with Width := p.Width }, [])
        | _ => none
      else if init then
        some ({ bs with Width := { bs.Width with Val := 0 } }, [])
      else some (bs, [])
    else
      some ({ bs with Width := env.SetIFace bs.Width val key }, [])),
  ("border-radius", fun env bs key val par _vp =>
    let (inh, init) := StyleInhInit val par
    if inh || init then
      if inh then
        match par with
        | .ptr p => some ({ bs with Radius := p.Radius }, [])
        | _ => none
      else if init then
        some ({ bs with Radius := { bs.Radius with Val := 0 } }, [])
      else some (bs, [])
    else
      some ({ bs with Radius := env.SetIFace bs.Radius val key }, [])),
  ("border-color", fun env bs key val par vp =>
    let (inh, init) := StyleInhInit val par
    if inh || init then
      if inh then
        match par with
        | .ptr p => some ({ bs with Color := p.Color }, [])
        | _ => none
      else if init then
        some ({ bs with Color := env.SetColor bs.Color color.Color.Black }, [])
      else some (bs, [])
    else
      some ({ bs with Color := env.ColorSetIFace bs.Color val vp key }, []))]

/-- Go `var StyleOutlineFuncs`: functions for styling the OutlineStyle object (a `BorderStyle`). -/
def StyleOutlineFuncs : List (String × StyleFunc BorderStyle) := [
  ("outline-style", fun env bs key val par _vp =>
    let (inh, init) := StyleInhInit val par
    if inh || init then
      if inh then
        match par with
        | .ptr p => some ({ bs with Style := p.Style }, [])
        | _ => none
      else if init then
        some ({ bs with Style := env.BorderNone }, [])
      else some (bs, [])
    else
      match val with
      | .str vt =>
        some ({ bs with Style := env.SetAnyEnumIfaceFromString .BorderDrawStyle bs.Style vt }, [])
      | .enum .BorderDrawStyle vt => some ({ bs with Style := vt }, [])
      | _ =>
        match env.ToInt val with
        | some iv => some ({ bs with Style := env.EnumOfInt64 .BorderDrawStyle iv }, [])
        | none => some (bs, StyleSetError key val)),
  ("outline-width", fun env bs key val par _vp =>
    let (inh, init) := StyleInhInit val par
    if inh || init then
      if inh then
        match par with
        | .ptr p => some ({ bs with Width := p.Width }, [])
        | _ => none
      else if init then
        some ({ bs with Width := { bs.Width with Val := 0 } }, [])
      else some (bs, [])
    else
      some ({ bs with Width := env.SetIFace bs.Width val key }, [])),
  ("outline-radius", fun env bs key val par _vp =>
    let (inh, init) := StyleInhInit val par
    if inh || init then
      if inh then
        match par with
        | .ptr p => some ({ bs with Radius := p.Radius }, [])
        | _ => none
      else if init then
        some ({ bs with Radius := { bs.Radius with Val := 0 } }, [])
      else some (bs, [])
    else
      some ({ bs with Radius := env.SetIFace bs.Radius val key }, [])),
  ("outline-color", fun env bs key val par vp =>
    let (inh, init) := StyleInhInit val par
    if inh || init then
      if inh then
        match par with
        | .ptr p => some ({ bs with Color := p.Color }, [])
        | _ => none
      else if init then
        some ({ bs with Color := env.SetColor bs.Color color.Color.Black }, [])
      else some (bs, [])
    else
      some ({ bs with Color := env.ColorSetIFace bs.Color val vp key }, []))]

/-- Go `var StyleShadowFuncs`: functions for styling the ShadowStyle object. -/
def StyleShadowFuncs : List (String × StyleFunc ShadowStyle) := [
  ("box-shadow.h-offset", fun env ss key val par _vp =>
    let (inh, init) := StyleInhInit val par
    if inh || init then
      if inh then
        match par with
        | .ptr p => some ({ ss with HOffset := p.HOffset }, [])
        | _ => none
      else if init then
        some ({ ss with HOffset := { ss.HOffset with Val := 0 } }, [])
      else some (ss, [])
    else
      some ({ ss with HOffset := env.SetIFace ss.HOffset val key }, [])),
  ("box-shadow.v-offset", fun env ss key val par _vp =>
    let (inh, init) := StyleInhInit val par
    if inh || init then
      if inh then
        match par with
        | .ptr p => some ({ ss with VOffset := p.VOffset }, [])
        | _ => none
      else if init then
        some ({ ss with VOffset := { ss.VOffset with Val := 0 } }, [])
      else some (ss, [])
    else
      some ({ ss with VOffset := env.SetIFace ss.VOffset val key }, [])),
  ("box-shadow.blur", fun env ss key val par _vp =>
    let (inh, init) := StyleInhInit val par
    if inh || init then
      if inh then
        match par with
        | .ptr p => some ({ ss with Blur := p.Blur }, [])
        | _ => none
      else if init then
        some ({ ss with Blur := { ss.Blur with Val := 0 } }, [])
      else some (ss, [])
    else
      some ({ ss with Blur := env.SetIFace ss.Blur val key }, [])),
  ("box-shadow.spread", fun env ss key val par _vp =>
    let (inh, init) := StyleInhInit val par
    if inh || init then
      if inh then
        match par with
        | .ptr p => some ({ ss with Spread := p.Spread }, [])
        | _ => none
      else if init then
        some ({ ss with Spread := { ss.Spread with Val := 0 } }, [])
      else some (ss, [])
    else
      some ({ ss with Spread := env.SetIFace ss.Spread val key }, [])),
  ("box-shadow.color", fun env ss key val par vp =>
    let (inh, init) := StyleInhInit val par
    if inh || init then
      if inh then
        match par with
        | .ptr p => some ({ ss with Color := p.Color }, [])
        | _ => none
      else if init then
        some ({ ss with Color := env.SetColor ss.Color color.Color.Black }, [])
      else some (ss, [])
    else
      some ({ ss with Color := env.ColorSetIFace ss.Color val vp key }, [])),
  ("box-shadow.inset", fun env ss key val par _vp =>
    let (inh, init) := StyleInhInit val par
    if inh || init then
      if inh then
        match par with
        | .ptr p => some ({ ss with Inset := p.Inset }, [])
        | _ => none
      else if init then
        some ({ ss with Inset := false }, [])
      else some (ss, [])
    else
      match env.ToBool val with
      | some bv => some ({ ss with Inset := bv }, [])
      | none => some (ss, []))]

/-- A pointer to a `Style`. -/
structure StylePtr where
  addr : Nat
  deriving DecidableEq, Repr

/-- The styles in memory, by address. -/
abbrev Heap := StylePtr → Style

/-- Writing through a `*Style`. -/
def Heap.set (h : Heap) (p : StylePtr) (v : Style) : Heap :=
  fun q => if q = p then v else h q

/-- The body of the loop of `StyleFromProps` for one `key, val` of the props: the
memory afterwards and the error reports of this iteration. -/
def StyleFromProps.body (env : Env) (h : Heap) (s : StylePtr) (par : Option StylePtr)
    (key : String) (val : Iface) (vp : Option Viewport2D) : Option (Heap × Log) :=
  if key.length = 0 then some (h, [])
  else if key.get 0 = '#' ∨ key.get 0 = '.' ∨ key.get 0 = ':' ∨ key.get 0 = '_' then
    some (h, [])
  else
    match StyleLayoutFuncs.lookup key with
    | some sfunc =>
      match (match par with
        | some pp => sfunc env (h s).Layout key val (.ptr (h pp).Layout) vp
        | none => sfunc env (h s).Layout key val .nilIface vp) with
      | some (obj, log) => some (h.set s { h s with Layout := obj }, log)
      | none => none
    | none =>
    match StyleFontFuncs.lookup key with
    | some sfunc =>
      match (match par with
        | some pp => sfunc env (h s).Font key val (.ptr (h pp).Font) vp
        | none => sfunc env (h s).Font key val .nilIface vp) with
      | some (obj, log) => some (h.set s { h s with Font := obj }, log)
      | none => none
    | none =>
    match StyleTextFuncs.lookup key with
    | some sfunc =>
      match (match par with
        | some pp => sfunc env (h s).Text key val (.ptr (h pp).Text) vp
        | none => sfunc env (h s).Text key val .nilIface vp) with
      | some (obj, log) => some (h.set s { h s with Text := obj }, log)
      | none => none
    | none =>
    match StyleBorderFuncs.lookup key with
    | some sfunc =>
      match (match par with
        | some pp => sfunc env (h s).Border key val (.ptr (h pp).Border) vp
        | none => sfunc env (h s).Border key val .nilIface vp) with
      | some (obj, log) => some (h.set s { h s with Border := obj }, log)
      | none => none
    | none =>
    match StyleStyleFuncs.lookup key with
    | some sfunc =>
      match sfunc env (h s) key val
        (match par with
          | some pp => .ptr (h pp)
          | none => .nilPtr) vp with
      | some (obj, log) => some (h.set s obj, log)
      | none => none
    | none =>
    match StyleOutlineFuncs.lookup key with
    | some sfunc =>
      match (match par with
        | some pp => sfunc env (h s).Outline key val (.ptr (h pp).Outline) vp
        | none => sfunc env (h s).Outline key val .nilIface vp) with
      | some (obj, log) => some (h.set s { h s with Outline := obj }, log)
      | none => none
    | none =>
    match StyleShadowFuncs.lookup key with
    | some sfunc =>
      match (match par with
        | some pp => sfunc env (h s).BoxShadow key val (.ptr (h pp).BoxShadow) vp
        | none => sfunc env (h s).BoxShadow key val .nilIface vp) with
      | some (obj, log) => some (h.set s { h s with BoxShadow := obj }, log)
      | none => none
    | none => some (h, [])

/-- Go `func (s *Style) StyleFromProps(par *Style, props ki.Props, vp *Viewport2D)`: the
props are the list of `key, val` in the order the `range` visits them; the result is
the memory afterwards and the error reports, `none` when a setter panics. -/
def Style.StyleFromProps (env : Env) (h : Heap) (s : StylePtr) (par : Option StylePtr)
    (props : List (String × Iface)) (vp : Option Viewport2D) : Option (Heap × Log) :=
  match props with
  | [] => some (h, [])
  | (key, val) :: rest =>
    match StyleFromProps.body env h s par key val vp with
    | none => none
    | some (h1, log1) =>
      match Style.StyleFromProps env h1 s par rest vp with
      | none => none
      | some (h2, log2) => some (h2, log1 ++ log2)

/-! ### ToDots -/

/-- Go `func (s *Style) StyleToDots(uc *units.Context)`: none. -/
def Style.StyleToDots (_env : Env) (s : Style) (_uc : units.Context) : Style := s

/-- Go `func (ly *LayoutStyle) ToDots(uc *units.Context)`. -/
def LayoutStyle.ToDots (env : Env) (ly : LayoutStyle) (uc : units.Context) : LayoutStyle :=
  let ly := { ly with PosX := env.ToDots uc ly.PosX }
  let ly := { ly with PosY := env.ToDots uc ly.PosY }
  let ly := { ly with Width := env.ToDots uc ly.Width }
  let ly := { ly with Height := env.ToDots uc ly.Height }
  let ly := { ly with MaxWidth := env.ToDots uc ly.MaxWidth }
  let ly := { ly with MaxHeight := env.ToDots uc ly.MaxHeight }
  let ly := { ly with MinWidth := env.ToDots uc ly.MinWidth }
  let ly := { ly with MinHeight := env.ToDots uc ly.MinHeight }
  let ly := { ly with Margin := env.ToDots uc ly.Margin }
  let ly := { ly with Padding := env.ToDots uc ly.Padding }
  let ly := { ly with ScrollBarWidth := env.ToDots uc ly.ScrollBarWidth }
  ly

/-- Go `func (fs *FontStyle) ToDots(uc *units.Context)`. -/
def FontStyle.ToDots (env : Env) (fs : FontStyle) (uc : units.Context) : FontStyle :=
  { fs with Size := env.ToDots uc fs.Size }

/-- Go `func (ts *TextStyle) ToDots(uc *units.Context)`. -/
def TextStyle.ToDots (env : Env) (ts : TextStyle) (uc : units.Context) : TextStyle :=
  let ts := { ts with LetterSpacing := env.ToDots uc ts.LetterSpacing }
  let ts := { ts with WordSpacing := env.ToDots uc ts.WordSpacing }
  let ts := { ts with Indent := env.ToDots uc ts.Indent }
  let ts := { ts with ParaSpacing := env.ToDots uc ts.ParaSpacing }
  ts

/-- Go `func (bs *BorderStyle) ToDots(uc *units.Context)`. -/
def BorderStyle.ToDots (env : Env) (bs : BorderStyle) (uc : units.Context) : BorderStyle :=
  let bs := { bs with Width := env.ToDots uc bs.Width }
  let bs := { bs with Radius := env.ToDots uc bs.Radius }
  bs

/-- Go `func (bs *ShadowStyle) ToDots(uc *units.Context)`. -/
def ShadowStyle.ToDots (env : Env) (bs : ShadowStyle) (uc : units.Context) : ShadowStyle :=
  let bs := { bs with HOffset := env.ToDots uc bs.HOffset }
  let bs := { bs with VOffset := env.ToDots uc bs.VOffset }
  let bs := { bs with Blur := env.ToDots uc bs.Blur }
  let bs := { bs with Spread := env.ToDots uc bs.Spread }
  bs

/-- Go `func (s *Style) ToDots(uc *units.Context)`. -/
def Style.ToDots (env : Env) (s : Style) (uc : units.Context) : Style :=
  let s := s.StyleToDots env uc
  let s := { s with Layout := s.Layout.ToDots env uc }
  let s := { s with Font := s.Font.ToDots env uc }
  let s := { s with Text := s.Text.ToDots env uc }
  let s := { s with Border := s.Border.ToDots env uc }
  let s := { s with Outline := s.Outline.ToDots env uc }
  let s := { s with BoxShadow := s.BoxShadow.ToDots env uc }
  s

/-! ## Specification vocabulary for the style setters -/

/-- The parent `StyleFromProps` hands to the setter of a part of the style: a pointer
to that part of the parent style, or the nil interface when there is no parent. -/
def subPar {σ : Type} (h : Heap) (par : Option StylePtr) (part : Style → σ) : Par σ :=
  match par with
  | some pp => .ptr (part (h pp))
  | none => .nilIface

/-- Every key of the seven dispatch tables, in the order `StyleFromProps` consults
them. -/
def styleKeys : List String :=
  StyleLayoutFuncs.map Prod.fst ++ StyleFontFuncs.map Prod.fst ++ StyleTextFuncs.map Prod.fst ++
    StyleBorderFuncs.map Prod.fst ++ StyleStyleFuncs.map Prod.fst ++
    StyleOutlineFuncs.map Prod.fst ++ StyleShadowFuncs.map Prod.fst

/-- For each property key, the field of a `Style` that the key's setter assigns, boxed
as a dynamic value. -/
def fieldTable : List (String × (Style → Iface)) := [
  ("display", fun s => .bool s.Display),
  ("visible", fun s => .bool s.Visible),
  ("inactive", fun s => .bool s.Inactive),
  ("pointer-events", fun s => .bool s.PointerEvents),
  ("z-index", fun s => .int s.Layout.ZIndex),
  ("horizontal-align", fun s => .enum .Align s.Layout.AlignH),
  ("vertical-align", fun s => .enum .Align s.Layout.AlignV),
  ("x", fun s => .value s.Layout.PosX),
  ("y", fun s => .value s.Layout.PosY),
  ("width", fun s => .value s.Layout.Width),
  ("height", fun s => .value s.Layout.Height),
  ("max-width", fun s => .value s.Layout.MaxWidth),
  ("max-height", fun s => .value s.Layout.MaxHeight),
  ("min-width", fun s => .value s.Layout.MinWidth),
  ("min-height", fun s => .value s.Layout.MinHeight),
  ("margin", fun s => .value s.Layout.Margin),
  ("padding", fun s => .value s.Layout.Padding),
  ("overflow", fun s => .enum .Overflow s.Layout.Overflow),
  ("columns", fun s => .int s.Layout.Columns),
  ("row", fun s => .int s.Layout.Row),
  ("col", fun s => .int s.Layout.Col),
  ("row-span", fun s => .int s.Layout.RowSpan),
  ("col-span", fun s => .int s.Layout.ColSpan),
  ("scrollbar-width", fun s => .value s.Layout.ScrollBarWidth),
  ("color", fun s => .color s.Font.Color),
  ("background-color", fun s => .colorSpec s.Font.BgColor),
  ("opacity", fun s => .float s.Font.Opacity),
  ("font-size", fun s => .value s.Font.Size),
  ("font-family", fun s => .str s.Font.Family),
  ("font-style", fun s => .enum .FontStyles s.Font.Style),
  ("font-weight", fun s => .enum .FontWeights s.Font.Weight),
  ("font-stretch", fun s => .enum .FontStretch s.Font.Stretch),
  ("font-variant", fun s => .enum .FontVariants s.Font.Variant),
  ("text-decoration", fun s => .enum .TextDecorations s.Font.Deco),
  ("baseline-shift", fun s => .enum .BaselineShifts s.Font.Shift),
  ("text-align", fun s => .enum .Align s.Text.Align),
  ("text-anchor", fun s => .enum .TextAnchors s.Text.Anchor),
  ("letter-spacing", fun s => .value s.Text.LetterSpacing),
  ("word-spacing", fun s => .value s.Text.WordSpacing),
  ("line-height", fun s => .float s.Text.LineHeight),
  ("white-space", fun s => .enum .WhiteSpaces s.Text.WhiteSpace),
  ("unicode-bidi", fun s => .enum .UnicodeBidi s.Text.UnicodeBidi),
  ("direction", fun s => .enum .TextDirections s.Text.Direction),
  ("writing-mode", fun s => .enum .TextDirections s.Text.WritingMode),
  ("glyph-orientation-vertical", fun s => .float s.Text.OrientationVert),
  ("glyph-orientation-horizontal", fun s => .float s.Text.OrientationHoriz),
  ("text-indent", fun s => .value s.Text.Indent),
  ("para-spacing", fun s => .value s.Text.ParaSpacing),
  ("tab-size", fun s => .int s.Text.TabSize),
  ("border-style", fun s => .enum .BorderDrawStyle s.Border.Style),
  ("border-width", fun s => .value s.Border.Width),
  ("border-radius", fun s => .value s.Border.Radius),
  ("border-color", fun s => .color s.Border.Color),
  ("outline-style", fun s => .enum .BorderDrawStyle s.Outline.Style),
  ("outline-width", fun s => .value s.Outline.Width),
  ("outline-radius", fun s => .value s.Outline.Radius),
  ("outline-color", fun s => .color s.Outline.Color),
  ("box-shadow.h-offset", fun s => .value s.BoxShadow.HOffset),
  ("box-shadow.v-offset", fun s => .value s.BoxShadow.VOffset),
  ("box-shadow.blur", fun s => .value s.BoxShadow.Blur),
  ("box-shadow.spread", fun s => .value s.BoxShadow.Spread),
  ("box-shadow.color", fun s => .color s.BoxShadow.Color),
  ("box-shadow.inset", fun s => .bool s.BoxShadow.Inset)]

/-- The value of the field of `s` that `key` addresses; `nil` for a key without a
setter. -/
def fieldOf (key : String) (s : Style) : Iface :=
  match fieldTable.lookup key with
  | some f => f s
  | none => .nil

/-- A style with every number zero, for examples. -/
def Style.zero : Style :=
  let v : units.Value := ⟨0, .Px, 0⟩
  { Display := false, Visible := false, Inactive := false, PointerEvents := false,
    Layout := ⟨0, 0, 0, v, v, v, v, v, v, v, v, v, v, 0, 0, 0, 0, 0, 0, v⟩,
    Font := ⟨⟨0⟩, ⟨0⟩, 0, v, "", 0, 0, 0, 0, 0, 0⟩,
    Text := ⟨0, 0, v, v, 0, 0, 0, 0, 0, 0, 0, v, v, 0⟩,
    Border := ⟨0, v, v, ⟨0⟩⟩,
    Outline := ⟨0, v, v, ⟨0⟩⟩,
    BoxShadow := ⟨v, v, v, v, ⟨0⟩, false⟩ }

/-- The style `Style.zero` with a width of 2pt and 12 dots, for examples. -/
def Style.sampleWide : Style :=
  { Style.zero with Layout := { Style.zero.Layout with Width := ⟨2, .Pt, 12⟩ } }

/-- The keys whose field is a `units.Value`. -/
def unitKeys : List String :=
  ["x", "y", "width", "height", "max-width", "max-height", "min-width", "min-height", "margin",
    "padding", "scrollbar-width", "font-size", "letter-spacing", "word-spacing", "text-indent",
    "para-spacing", "border-width", "border-radius", "outline-width", "outline-radius",
    "box-shadow.h-offset", "box-shadow.v-offset", "box-shadow.blur", "box-shadow.spread"]

/-- One possible behaviour of the packages outside the excerpt, for examples; its enum
types are 32 bits wide. -/
def Env.sample : Env where
  ToBool := fun v => match v with
    | .bool b => some b
    | .int n => some (n != 0)
    | _ => none
  ToInt := fun v => match v with
    | .int n => some n
    | .enum _ n => some n
    | .bool b => some (if b then 1 else 0)
    | _ => none
  ToFloat32 := fun v => match v with
    | .float f => some f
    | _ => none
  ToString := fun v => match v with
    | .str s => s
    | .int n => FormatInt10 n
    | .bool b => if b then "true" else "false"
    | _ => ""
  SetAnyEnumIfaceFromString := fun _ old _ => old
  EnumOfInt64 := fun _ iv => (iv + 2147483648) % 4294967296 - 2147483648
  SetIFace := fun old v _ => match v with
    | .value nv => nv
    | _ => old
  Set := fun old x u => { old with Val := x, Un := u }
  NewPt := fun x => ⟨x, .Pt, 0⟩
  ToDots := fun _ v => { v with Dots := v.Val }
  ColorSetIFace := fun old v _ _ => match v with
    | .color c => c
    | _ => old
  ColorSpecSetIFace := fun old v _ _ => match v with
    | .colorSpec c => c
    | _ => old
  SetColor := fun _ ci => match ci with
    | .Black => ⟨255⟩
    | .other n => ⟨n⟩
  FontSizePoints := fun s => if s = "medium" then some 12 else none
  AlignLeft := 0
  AlignMiddle := 5
  OverflowAuto := 0
  FontNormal := 0
  WeightNormal := 0
  FontStrNormal := 0
  FontVarNormal := 0
  DecoNone := 0
  ShiftBaseline := 0
  AnchorStart := 0
  WhiteSpaceNormal := 0
  BidiNormal := 0
  LRTB := 0
  BorderSolid := 1
  BorderNone := 0

/-- The unit-valued keys whose "initial" branch is `field.Val = 0`. -/
def numberResetKeys : List String :=
  ["x", "y", "width", "height", "max-width", "max-height", "margin", "padding",
    "scrollbar-width", "letter-spacing", "word-spacing", "text-indent", "para-spacing",
    "border-width", "border-radius", "outline-width", "outline-radius",
    "box-shadow.h-offset", "box-shadow.v-offset", "box-shadow.blur", "box-shadow.spread"]

/-- The keys whose "initial" branch calls a method of the field (`Value.Set`,
`Color.SetColor`). -/
def methodResetKeys : List String :=
  ["min-width", "min-height", "font-size", "color", "border-color", "outline-color",
    "box-shadow.color"]

/-- The keys whose "initial" branch assigns a constant to the field, with that
constant. -/
def initialDefaults (env : Env) : List (String × Iface) := [
  ("display", .bool true),
  ("visible", .bool false),
  ("inactive", .bool false),
  ("pointer-events", .bool true),
  ("z-index", .int 0),
  ("horizontal-align", .enum .Align env.AlignLeft),
  ("vertical-align", .enum .Align env.AlignMiddle),
  ("overflow", .enum .Overflow env.OverflowAuto),
  ("columns", .int 0),
  ("row", .int 0),
  ("col", .int 0),
  ("row-span", .int 0),
  ("col-span", .int 0),
  ("background-color", .colorSpec ColorSpec.zero),
  ("opacity", .float 1),
  ("font-family", .str ""),
  ("font-style", .enum .FontStyles env.FontNormal),
  ("font-weight", .enum .FontWeights env.WeightNormal),
  ("font-stretch", .enum .FontStretch env.FontStrNormal),
  ("font-variant", .enum .FontVariants env.FontVarNormal),
  ("text-decoration", .enum .TextDecorations env.DecoNone),
  ("baseline-shift", .enum .BaselineShifts env.ShiftBaseline),
  ("text-align", .enum .Align env.AlignLeft),
  ("text-anchor", .enum .TextAnchors env.AnchorStart),
  ("line-height", .float 1),
  ("white-space", .enum .WhiteSpaces env.WhiteSpaceNormal),
  ("unicode-bidi", .enum .UnicodeBidi env.BidiNormal),
  ("direction", .enum .TextDirections env.LRTB),
  ("writing-mode", .enum .TextDirections env.LRTB),
  ("glyph-orientation-vertical", .float 1),
  ("glyph-orientation-horizontal", .float 1),
  ("tab-size", .int 4),
  ("border-style", .enum .BorderDrawStyle env.BorderSolid),
  ("outline-style", .enum .BorderDrawStyle env.BorderNone),
  ("box-shadow.inset", .bool false)]

/-- What "initial" makes of the field a key addresses, from the field before: the
constant of `initialDefaults`; for a unit-valued field the number 0 with unit and dots
kept, except `Set(2, Px)` for "min-width" and "min-height" and `Set(12, Pt)` for
"font-size"; for a colour `SetColor(color.Black)`. -/
def initialField (env : Env) (key : String) (old : Iface) : Iface :=
  match (initialDefaults env).lookup key with
  | some d => d
  | none =>
    match old with
    | .value v =>
      if key = "min-width" ∨ key = "min-height" then .value (env.Set v 2 units.Unit.Px)
      else if key = "font-size" then .value (env.Set v 12 units.Unit.Pt)
      else .value { v with Val := 0 }
    | .color c => .color (env.SetColor c color.Color.Black)
    | x => x

/-- The style `s` with the number of the unit-valued field that `key` addresses
replaced by `x`; `s` itself for the other keys. -/
def setNumber (key : String) (x : F32) (s : Style) : Style :=
  if key = "x" then
    { s with Layout := { s.Layout with PosX := { s.Layout.PosX with Val := x } } }
  else if key = "y" then
    { s with Layout := { s.Layout with PosY := { s.Layout.PosY with Val := x } } }
  else if key = "width" then
    { s with Layout := { s.Layout with Width := { s.Layout.Width with Val := x } } }
  else if key = "height" then
    { s with Layout := { s.Layout with Height := { s.Layout.Height with Val := x } } }
  else if key = "max-width" then
    { s with Layout := { s.Layout with MaxWidth := { s.Layout.MaxWidth with Val := x } } }
  else if key = "max-height" then
    { s with Layout := { s.Layout with MaxHeight := { s.Layout.MaxHeight with Val := x } } }
  else if key = "min-width" then
    { s with Layout := { s.Layout with MinWidth := { s.Layout.MinWidth with Val := x } } }
  else if key = "min-height" then
    { s with Layout := { s.Layout with MinHeight := { s.Layout.MinHeight with Val := x } } }
  else if key = "margin" then
    { s with Layout := { s.Layout with Margin := { s.Layout.Margin with Val := x } } }
  else if key = "padding" then
    { s with Layout := { s.Layout with Padding := { s.Layout.Padding with Val := x } } }
  else if key = "scrollbar-width" then
    { s with Layout :=
        { s.Layout with ScrollBarWidth := { s.Layout.ScrollBarWidth with Val := x } } }
  else if key = "font-size" then
    { s with Font := { s.Font with Size := { s.Font.Size with Val := x } } }
  else if key = "letter-spacing" then
    { s with Text := { s.Text with LetterSpacing := { s.Text.LetterSpacing with Val := x } } }
  else if key = "word-spacing" then
    { s with Text := { s.Text with WordSpacing := { s.Text.WordSpacing with Val := x } } }
  else if key = "text-indent" then
    { s with Text := { s.Text with Indent := { s.Text.Indent with Val := x } } }
  else if key = "para-spacing" then
    { s with Text := { s.Text with ParaSpacing := { s.Text.ParaSpacing with Val := x } } }
  else if key = "border-width" then
    { s with Border := { s.Border with Width := { s.Border.Width with Val := x } } }
  else if key = "border-radius" then
    { s with Border := { s.Border with Radius := { s.Border.Radius with Val := x } } }
  else if key = "outline-width" then
    { s with Outline := { s.Outline with Width := { s.Outline.Width with Val := x } } }
  else if key = "outline-radius" then
    { s with Outline := { s.Outline with Radius := { s.Outline.Radius with Val := x } } }
  else if key = "box-shadow.h-offset" then
    { s with BoxShadow := { s.BoxShadow with HOffset := { s.BoxShadow.HOffset with Val := x } } }
  else if key = "box-shadow.v-offset" then
    { s with BoxShadow := { s.BoxShadow with VOffset := { s.BoxShadow.VOffset with Val := x } } }
  else if key = "box-shadow.blur" then
    { s with BoxShadow := { s.BoxShadow with Blur := { s.BoxShadow.Blur with Val := x } } }
  else if key = "box-shadow.spread" then
    { s with BoxShadow := { s.BoxShadow with Spread := { s.BoxShadow.Spread with Val := x } } }
  else s

end gi

namespace giv

open gi

/-! ## giv/mapviewinline.go

`ValueView`, `ToValueView`, the `reflect` and `sort` packages and `kit` are outside the
excerpt: their functions are the fields of `Env`.  The state of a `MapViewInline` is
its fields `Map`, `Keys`, `Values`, `TmpSave`, the layout of its `Parts`, and the
`config` list that `ConfigParts` hands to `Parts.ConfigChildren`. -/

/-- A `ValueView`, kept as an uninterpreted code. -/
structure ValueView where
  code : Nat
  deriving DecidableEq, Repr

/-- A registered type (`reflect.Type`), as `WidgetType()` and `gi.KiT_Action` give
it. -/
structure KiType where
  id : Nat
  deriving DecidableEq, Repr

/-- One entry of a `kit.TypeAndNameList`. -/
structure TypeAndName where
  Typ : KiType
  Name : String
  deriving DecidableEq, Repr

/-- The map behind `mv.Map`: its entries, each a key with its value. -/
abbrev GoMap := List (Iface × Iface)

/-- The functions and constants of the packages outside the excerpt. -/
structure Env where
  /-- Go `kit.ToString` of `key.Interface()`. -/
  ToString : Iface → String
  /-- Go `kit.ToString` of the `reflect.Value` of a key, which `sort.Slice` compares. -/
  ToStringValue : Iface → String
  /-- Go `ToValueView`: `none` is a nil view. -/
  ToValueView : Iface → Option ValueView
  /-- Go `kv.SetMapKey(key, owner, tmpSave)`: the view afterwards. -/
  SetMapKey : ValueView → Iface → GoMap → Option ValueView → ValueView
  /-- Go `vv.SetMapValue(val, owner, key, keyView, tmpSave)`: the view afterwards. -/
  SetMapValue : ValueView → Iface → GoMap → Iface → ValueView → Option ValueView → ValueView
  /-- Go `WidgetType()` of a view. -/
  WidgetType : ValueView → KiType
  /-- Go `gi.KiT_Action`. -/
  KiT_Action : KiType
  /-- Go `gi.LayoutHoriz`. -/
  LayoutHoriz : Int
  /-- Go `==` on two map keys, as the map lookup of the runtime applies it: a key that
  holds a NaN is not equal to itself. -/
  KeyEq : Iface → Iface → Bool

/-- Go `mpvnp.MapIndex(key)`: the value of the entry whose key is equal to `key`;
`none` is the zero `reflect.Value` it returns when the map has no such entry. -/
def MapIndex (env : Env) (mp : GoMap) (key : Iface) : Option Iface :=
  match mp.find? (fun e => env.KeyEq e.1 key) with
  | some e => some e.2
  | none => none

/-- Go `type MapViewInline struct`: `Map` is `none` for a nil map; `Config` is the list
last handed to `Parts.ConfigChildren`. -/
structure MapViewInline where
  PartsLay : Int
  Config : List TypeAndName
  Map : Option GoMap
  Keys : List ValueView
  Values : List ValueView
  TmpSave : Option ValueView
  deriving DecidableEq, Repr

/-- What the `for _, key := range keys` loop of `ConfigParts` builds. -/
structure ConfigState where
  Config : List TypeAndName
  Keys : List ValueView
  Values : List ValueView
  deriving DecidableEq, Repr

/-- The loop `for _, key := range keys` of `ConfigParts`; `none` is the panic of
`val.Interface()` on the zero `reflect.Value` that `MapIndex` returns for a key it does
not find, as for a NaN key. -/
def ConfigParts.loop (env : Env) (mp : GoMap) (tmpSave : Option ValueView) :
    List Iface → ConfigState → Option ConfigState
  | [], st => some st
  | key :: rest, st =>
    match env.ToValueView key with
    | none => ConfigParts.loop env mp tmpSave rest st
    | some kv =>
      let kv := env.SetMapKey kv key mp tmpSave
      match MapIndex env mp key with
      | none => none
      | some val =>
        match env.ToValueView val with
        | none => ConfigParts.loop env mp tmpSave rest st
        | some vv =>
          let vv := env.SetMapValue vv val mp key kv tmpSave
          let keytxt := env.ToString key
          let keynm := "key-" ++ keytxt
          let valnm := "value-" ++ keytxt
          let config := st.Config ++ [⟨env.WidgetType kv, keynm⟩]
          let config := config ++ [⟨env.WidgetType vv, valnm⟩]
          ConfigParts.loop env mp tmpSave rest
            { Config := config, Keys := st.Keys ++ [kv], Values := st.Values ++ [vv] }

/-- Go `func (mv *MapViewInline) ConfigParts()`, up to the call of
`Parts.ConfigChildren(config, false)`.  `keys` is what `mpvnp.MapKeys()` followed by
`sort.Slice` delivers: the keys of the map, in an order sorted by `ToStringValue`. -/
def MapViewInline.ConfigParts (env : Env) (mv : MapViewInline) (keys : List Iface) :
    Option MapViewInline :=
  match mv.Map with
  | none => some mv
  | some mp =>
    let mv := { mv with PartsLay := env.LayoutHoriz }
    let mv := { mv with Keys := [], Values := [] }
    match ConfigParts.loop env mp mv.TmpSave keys ⟨[], mv.Keys, mv.Values⟩ with
    | none => none
    | some st =>
      let config := st.Config ++ [⟨env.KiT_Action, "edit-action"⟩]
      some { mv with Config := config, Keys := st.Keys, Values := st.Values }

/-- Go `func (mv *MapViewInline) UpdateFromMap()`. -/
def MapViewInline.UpdateFromMap (env : Env) (mv : MapViewInline) (keys : List Iface) :
    Option MapViewInline :=
  mv.ConfigParts env keys

/-- Go `func (mv *MapViewInline) SetMap(mp interface{}, tmpSave ValueView)`. -/
def MapViewInline.SetMap (env : Env) (mv : MapViewInline) (mp : Option GoMap)
    (tmpSave : Option ValueView) (keys : List Iface) : Option MapViewInline :=
  let mv := { mv with Map := mp }
  let mv := { mv with TmpSave := tmpSave }
  mv.UpdateFromMap env keys

/-- What the runtime guarantees of a map: two entries with equal keys are one and the
same entry. -/
def GoMap.Distinct (env : Env) (mp : GoMap) : Prop :=
  ∀ a ∈ mp, ∀ b ∈ mp, env.KeyEq a.1 b.1 = true → a = b

/-- Whether `MapIndex` finds every key of `keys` that `ToValueView` gives a view: the
keys at which the loop of `ConfigParts` does not panic. -/
def allFound (env : Env) (mp : GoMap) (keys : List Iface) : Bool :=
  keys.all fun key => (env.ToValueView key).isNone || (MapIndex env mp key).isSome

/-- What `MapKeys` and `sort.Slice` guarantee of `keys` for the map `mp`: the keys of
the map, each once, no key after one whose string is greater. -/
def SortedKeysOf (env : Env) (mp : GoMap) (keys : List Iface) : Prop :=
  keys.Perm (mp.map Prod.fst) ∧
    keys.Pairwise (fun a b => env.ToStringValue a ≤ env.ToStringValue b)

/-- The entries of the map for which `ConfigParts` makes a pair of views, in the order
of `keys`: key, value, and the two views as `ToValueView` gives them. -/
def keptEntries (env : Env) (mp : GoMap) (keys : List Iface) :
    List (Iface × Iface × ValueView × ValueView) :=
  keys.filterMap fun key =>
    match env.ToValueView key, MapIndex env mp key with
    | some kv, some val =>
      match env.ToValueView val with
      | some vv => some (key, val, kv, vv)
      | none => none
    | _, _ => none

/-- The key view `ConfigParts` makes for a kept entry: the view of the key after
`SetMapKey`. -/
def keyViewOf (env : Env) (mp : GoMap) (tmpSave : Option ValueView)
    (e : Iface × Iface × ValueView × ValueView) : ValueView :=
  env.SetMapKey e.2.2.1 e.1 mp tmpSave

/-- The value view `ConfigParts` makes for a kept entry: the view of the value after
`SetMapValue`, which is given the key and the key view of the same entry. -/
def valueViewOf (env : Env) (mp : GoMap) (tmpSave : Option ValueView)
    (e : Iface × Iface × ValueView × ValueView) : ValueView :=
  env.SetMapValue e.2.2.2 e.2.1 mp e.1 (keyViewOf env mp tmpSave e) tmpSave

/-- The widgets configured for a list of kept entries: for each entry the key widget
`key-<k>` and then the value widget `value-<k>`. -/
def configOf (env : Env) (mp : GoMap) (tmpSave : Option ValueView) :
    List (Iface × Iface × ValueView × ValueView) → List TypeAndName
  | [] => []
  | e :: es =>
    ⟨env.WidgetType (keyViewOf env mp tmpSave e), "key-" ++ env.ToString e.1⟩ ::
      ⟨env.WidgetType (valueViewOf env mp tmpSave e), "value-" ++ env.ToString e.1⟩ ::
      configOf env mp tmpSave es

/-- Whether a `float32` bit pattern is a NaN: every exponent bit set and a fraction
that is not zero. -/
def isNaN (f : F32) : Bool :=
  (f.bits / 2 ^ 23) % 2 ^ 8 == 255 && f.bits % 2 ^ 23 != 0

/-- Go `==` on two `float32`: a NaN is equal to nothing, the two zeros are equal. -/
def floatEq (a b : F32) : Bool :=
  !isNaN a && !isNaN b &&
    (a.bits == b.bits || (a.bits % 2 ^ 31 == 0 && b.bits % 2 ^ 31 == 0))

/-- One possible behaviour of the packages outside the excerpt, for examples: a view
of an integer `n` has code `n`, a view of a `float32` has its bit pattern as code, no
other value has a view; keys are compared as Go compares them. -/
def Env.sample : Env where
  ToString := fun v => match v with
    | .str s => s
    | .int n => FormatInt10 n
    | _ => ""
  ToStringValue := fun v => match v with
    | .str s => s
    | .int n => FormatInt10 n
    | _ => ""
  ToValueView := fun v => match v with
    | .int n => some ⟨n.toNat⟩
    | .float f => some ⟨f.bits⟩
    | _ => none
  SetMapKey := fun kv _ _ _ => ⟨kv.code + 100⟩
  SetMapValue := fun vv _ _ _ kv _ => ⟨vv.code + 1000 * kv.code⟩
  WidgetType := fun v => ⟨v.code % 2⟩
  KiT_Action := ⟨7⟩
  LayoutHoriz := 1
  KeyEq := fun a b => match a, b with
    | .float x, .float y => floatEq x y
    | _, _ => decide (a = b)

end giv

namespace windriver

/-! ## oswin/driver/windriver/windriver.go

The packages `win32` and `errapp` are outside the excerpt.  A run of `Main` is described
by the trace of what it does, in order; a run of `win32.Main` by how often it runs its
callback and by the error it returns. -/

/-- A non-nil `error`. -/
structure Error where
  msg : String
  deriving DecidableEq, Repr

/-- The `oswin.App` values `Main` handles: the driver's `theApp`, and
`errapp.Stub(err)`. -/
inductive App where
  | theApp
  | Stub (err : Error)
  deriving DecidableEq, Repr

/-- What a run of `Main` does, step by step: the assignment `oswin.TheApp = a`, the
call `theApp.initScreens()`, entering `win32.Main`, a call `f(a)` with its return, and
the return of `win32.Main` with its error (`none` is nil). -/
inductive Event where
  | setTheApp (a : App)
  | initScreens
  | win32Main
  | call (a : App)
  | win32Return (err : Option Error)
  deriving DecidableEq, Repr

/-- The steps of a run so far, oldest first. -/
abbrev Trace := List Event

/-- One run of `win32.Main` as its caller sees it: how many times it runs the callback
it was given, and the error it returns (`none` is nil). -/
structure Win32Run where
  callbacks : Nat
  err : Option Error
  deriving DecidableEq, Repr

/-- The call `win32.Main(callback)` for a run `run` of it: the callback runs
`run.callbacks` times, then `run.err` is returned. -/
def win32.Main (run : Win32Run) (callback : Trace → Trace) (t : Trace) :
    Trace × Option Error :=
  let t := t ++ [Event.win32Main]
  let t := Nat.iterate callback run.callbacks t
  (t ++ [Event.win32Return run.err], run.err)

/-- A function `f` that does nothing but be called: the call is recorded. -/
def callF (a : App) (t : Trace) : Trace :=
  t ++ [Event.call a]

/-- Go `func Main(f func(oswin.App))`. -/
def Main (run : Win32Run) (f : App → Trace → Trace) (t : Trace) : Trace :=
  let t := t ++ [Event.setTheApp App.theApp]
  let t := t ++ [Event.initScreens]
  match win32.Main run (fun t => f App.theApp t) t with
  | (t, none) => t
  | (t, some err) => f (App.Stub err) t

end windriver

namespace gi

set_option maxRecDepth 100000

/-! ## Theorems -/

/-! ### The `AlignHorizontal` stringer -/

theorem goSlice_AlignLeft : goSlice _AlignHorizontal_name 0 9 = some "AlignLeft" := by decide

theorem goSlice_AlignHCenter : goSlice _AlignHorizontal_name 9 21 = some "AlignHCenter" := by
  decide

theorem goSlice_AlignRight : goSlice _AlignHorizontal_name 21 31 = some "AlignRight" := by decide

theorem goSlice_AlignJustify : goSlice _AlignHorizontal_name 31 43 = some "AlignJustify" := by
  decide

/-- One iteration of the search loop at an index inside the table. -/
theorem StringToAlignHorizontal.loop_step (s : String) (fuel i lo hi : Nat) (nm : String)
    (hi1 : i < _AlignHorizontal_index.length - 1)
    (hlo : goIndex _AlignHorizontal_index i = some lo)
    (hhi : goIndex _AlignHorizontal_index ((i : Int) + 1) = some hi)
    (hs : goSlice _AlignHorizontal_name lo hi = some nm) :
    StringToAlignHorizontal.loop s (fuel + 1) i =
      if s = nm then some ((i : Int), none) else StringToAlignHorizontal.loop s fuel (i + 1) := by
  rw [StringToAlignHorizontal.loop, if_pos hi1, hlo, hhi]
  simp only [hs]

/-- The loop leaves with the error once the index is past the table. -/
theorem StringToAlignHorizontal.loop_end (s : String) (fuel i : Nat)
    (hi1 : ¬ i < _AlignHorizontal_index.length - 1) :
    StringToAlignHorizontal.loop s (fuel + 1) i =
      some (0, some ("String " ++ s ++ " is not a valid option for type AlignHorizontal")) := by
  rw [StringToAlignHorizontal.loop, if_neg hi1]

/-- Closed form of `StringToAlignHorizontal`. -/
theorem StringToAlignHorizontal_eq (s : String) :
    StringToAlignHorizontal s =
      if s = "AlignLeft" then some (0, none)
      else if s = "AlignHCenter" then some (1, none)
      else if s = "AlignRight" then some (2, none)
      else if s = "AlignJustify" then some (3, none)
      else some (0, some ("String " ++ s ++ " is not a valid option for type AlignHorizontal")) := by
  unfold StringToAlignHorizontal
  rw [show _AlignHorizontal_index.length + 1 = 5 + 1 from rfl,
    StringToAlignHorizontal.loop_step s 5 0 0 9 "AlignLeft" (by decide) (by decide) (by decide)
      goSlice_AlignLeft,
    StringToAlignHorizontal.loop_step s 4 1 9 21 "AlignHCenter" (by decide) (by decide)
      (by decide) goSlice_AlignHCenter,
    StringToAlignHorizontal.loop_step s 3 2 21 31 "AlignRight" (by decide) (by decide)
      (by decide) goSlice_AlignRight,
    StringToAlignHorizontal.loop_step s 2 3 31 43 "AlignJustify" (by decide) (by decide)
      (by decide) goSlice_AlignJustify,
    StringToAlignHorizontal.loop_end s 1 (3 + 1) (by decide)]
  rfl

/-- Closed form of `AlignHorizontal.String`. -/
theorem AlignHorizontal.String_eq (i : Int) :
    AlignHorizontal.String i =
      if i = 0 then some "AlignLeft"
      else if i = 1 then some "AlignHCenter"
      else if i = 2 then some "AlignRight"
      else if i = 3 then some "AlignJustify"
      else some ("AlignHorizontal(" ++ FormatInt10 i ++ ")") := by
  by_cases h : i < 0 ∨ i ≥ 4
  · have h' : i < 0 ∨ i ≥ ((_AlignHorizontal_index.length : Int) - 1) := h
    rw [AlignHorizontal.String, if_pos h', if_neg (by omega), if_neg (by omega),
      if_neg (by omega), if_neg (by omega)]
  · have hi : i = 0 ∨ i = 1 ∨ i = 2 ∨ i = 3 := by omega
    rcases hi with rfl | rfl | rfl | rfl <;> decide

/-- C4: `String` and `StringToAlignHorizontal` are inverse on the valid range: for
`0 ≤ i ≤ 3` the name of `i` parses back to `i` with a nil error, and whenever a string
parses to `v` with a nil error, the name of `v` is that string. -/
theorem AlignHorizontal_String_roundtrip (i : Int) (s : String) (v : Int) :
    (0 ≤ i → i ≤ 3 →
      ∃ nm, AlignHorizontal.String i = some nm ∧ StringToAlignHorizontal nm = some (i, none)) ∧
    (StringToAlignHorizontal s = some (v, none) → AlignHorizontal.String v = some s) := by
  constructor
  · intro h0 h3
    have hi : i = 0 ∨ i = 1 ∨ i = 2 ∨ i = 3 := by omega
    rcases hi with rfl | rfl | rfl | rfl
    · exact ⟨"AlignLeft", by decide, by decide⟩
    · exact ⟨"AlignHCenter", by decide, by decide⟩
    · exact ⟨"AlignRight", by decide, by decide⟩
    · exact ⟨"AlignJustify", by decide, by decide⟩
  · rw [StringToAlignHorizontal_eq]
    intro h
    split_ifs at h with h1 h2 h3 h4
    · obtain rfl : (0 : Int) = v := by simpa using h
      subst h1; decide
    · obtain rfl : (1 : Int) = v := by simpa using h
      subst h2; decide
    · obtain rfl : (2 : Int) = v := by simpa using h
      subst h3; decide
    · obtain rfl : (3 : Int) = v := by simpa using h
      subst h4; decide
    · simp at h

/-- C4 at `i = 2`, `s = "AlignRight"`. -/
theorem AlignHorizontal_String_roundtrip_witness :
    (∃ nm, AlignHorizontal.String 2 = some nm ∧ StringToAlignHorizontal nm = some (2, none)) ∧
      AlignHorizontal.String 2 = some "AlignRight" :=
  ⟨(AlignHorizontal_String_roundtrip 2 "AlignRight" 2).1 (by decide) (by decide),
    (AlignHorizontal_String_roundtrip 2 "AlignRight" 2).2 (by decide)⟩

/-- C5: `StringToAlignHorizontal s` has a nil error exactly when `s` is one of the four
names, spelled exactly; the value is then 0, 1, 2, 3 in that order; for every other
string, the empty one included, the value is 0 and the error message is
`String <s> is not a valid option for type AlignHorizontal`. -/
theorem StringToAlignHorizontal_spec (s : String) :
    (s = "AlignLeft" → StringToAlignHorizontal s = some (0, none)) ∧
    (s = "AlignHCenter" → StringToAlignHorizontal s = some (1, none)) ∧
    (s = "AlignRight" → StringToAlignHorizontal s = some (2, none)) ∧
    (s = "AlignJustify" → StringToAlignHorizontal s = some (3, none)) ∧
    (s ∉ ["AlignLeft", "AlignHCenter", "AlignRight", "AlignJustify"] →
      StringToAlignHorizontal s =
        some (0, some ("String " ++ s ++ " is not a valid option for type AlignHorizontal"))) ∧
    ((∃ v, StringToAlignHorizontal s = some (v, none)) ↔
      s ∈ ["AlignLeft", "AlignHCenter", "AlignRight", "AlignJustify"]) := by
  refine ⟨?_, ?_, ?_, ?_, ?_, ?_⟩
  · rintro rfl; decide
  · rintro rfl; decide
  · rintro rfl; decide
  · rintro rfl; decide
  · intro h
    simp only [List.mem_cons, List.mem_singleton, List.mem_nil_iff, or_false, not_or] at h
    rw [StringToAlignHorizontal_eq, if_neg h.1, if_neg h.2.1, if_neg h.2.2.1, if_neg h.2.2.2]
  · rw [StringToAlignHorizontal_eq]
    simp only [List.mem_cons, List.mem_singleton, List.mem_nil_iff, or_false]
    constructor
    · rintro ⟨v, h⟩
      split_ifs at h with h1 h2 h3 h4
      · exact Or.inl h1
      · exact Or.inr (Or.inl h2)
      · exact Or.inr (Or.inr (Or.inl h3))
      · exact Or.inr (Or.inr (Or.inr h4))
      · simp at h
    · intro h
      split_ifs with h1 h2 h3 h4
      · exact ⟨0, rfl⟩
      · exact ⟨1, rfl⟩
      · exact ⟨2, rfl⟩
      · exact ⟨3, rfl⟩
      · rcases h with h | h | h | h <;> contradiction

/-- C5 at the lower-case spelling `"alignleft"` and at the empty string. -/
theorem StringToAlignHorizontal_spec_witness :
    StringToAlignHorizontal "alignleft" =
        some (0, some "String alignleft is not a valid option for type AlignHorizontal") ∧
      StringToAlignHorizontal "" =
        some (0, some "String  is not a valid option for type AlignHorizontal") ∧
      StringToAlignHorizontal "AlignHCenter" = some (1, none) :=
  ⟨(StringToAlignHorizontal_spec "alignleft").2.2.2.2.1 (by decide),
    (StringToAlignHorizontal_spec "").2.2.2.2.1 (by decide),
    (StringToAlignHorizontal_spec "AlignHCenter").2.1 rfl⟩

/-- C6: `AlignHorizontal.String` always returns (no index or slice is out of bounds):
the four names for `i = 0, 1, 2, 3`, and for every other `i`, negative or `≥ 4`,
`AlignHorizontal(` followed by the decimal digits of `i` and `)`. -/
theorem AlignHorizontal_String_total (i : Int) :
    (∃ nm, AlignHorizontal.String i = some nm) ∧
    AlignHorizontal.String 0 = some "AlignLeft" ∧
    AlignHorizontal.String 1 = some "AlignHCenter" ∧
    AlignHorizontal.String 2 = some "AlignRight" ∧
    AlignHorizontal.String 3 = some "AlignJustify" ∧
    (i < 0 ∨ 4 ≤ i →
      AlignHorizontal.String i = some ("AlignHorizontal(" ++ FormatInt10 i ++ ")")) := by
  refine ⟨?_, by decide, by decide, by decide, by decide, ?_⟩
  · rw [AlignHorizontal.String_eq]
    split_ifs <;> exact ⟨_, rfl⟩
  · intro h
    rw [AlignHorizontal.String_eq, if_neg (by omega), if_neg (by omega), if_neg (by omega),
      if_neg (by omega)]

/-- C6 at `i = -7` and `i = 4`. -/
theorem AlignHorizontal_String_total_witness :
    AlignHorizontal.String (-7) = some "AlignHorizontal(-7)" ∧
      AlignHorizontal.String 4 = some "AlignHorizontal(4)" :=
  ⟨(AlignHorizontal_String_total (-7)).2.2.2.2.2 (by decide),
    (AlignHorizontal_String_total 4).2.2.2.2.2 (by decide)⟩

/-! ### `StyleInhInit` -/

/-- C1: for the string "inherit" `init` is false and `inh` is true exactly when `par`
is not nil (neither the nil interface nor a nil pointer, which is what
`kit.IfaceIsNil` tests); for the string "initial" the result is `(false, true)`; for
every other string and every value that is not a string it is `(false, false)`. -/
theorem StyleInhInit_spec {σ : Type} (val : Iface) (par : Par σ) :
    (val = .str "inherit" →
      (StyleInhInit val par).2 = false ∧
        ((StyleInhInit val par).1 = true ↔ IfaceIsNil par = false) ∧
        ((StyleInhInit val par).1 = true ↔ ∃ p, par = .ptr p)) ∧
    (val = .str "initial" → StyleInhInit val par = (false, true)) ∧
    (val ≠ .str "inherit" → val ≠ .str "initial" → StyleInhInit val par = (false, false)) := by
  refine ⟨?_, ?_, ?_⟩
  · rintro rfl
    cases par <;> simp [StyleInhInit, IfaceIsNil]
  · rintro rfl
    simp [StyleInhInit]
  · intro h1 h2
    cases val <;> simp_all [StyleInhInit]

/-- C1 at "inherit" with a parent, at "initial", and at a value that is not a string. -/
theorem StyleInhInit_spec_witness :
    ((StyleInhInit (.str "inherit") (Par.ptr Style.zero)).2 = false ∧
        ((StyleInhInit (.str "inherit") (Par.ptr Style.zero)).1 = true ↔
          IfaceIsNil (Par.ptr Style.zero) = false) ∧
        ((StyleInhInit (.str "inherit") (Par.ptr Style.zero)).1 = true ↔
          ∃ p, Par.ptr Style.zero = .ptr p)) ∧
      StyleInhInit (.str "initial") (Par.nilPtr : Par Style) = (false, true) ∧
      StyleInhInit (.int 3) (Par.ptr Style.zero) = (false, false) :=
  ⟨(StyleInhInit_spec (.str "inherit") (Par.ptr Style.zero)).1 rfl,
    (StyleInhInit_spec (.str "initial") (Par.nilPtr : Par Style)).2.1 rfl,
    (StyleInhInit_spec (.int 3) (Par.ptr Style.zero)).2.2 (by decide) (by decide)⟩

/-! ### The dispatch tables -/

/-- The keys of the seven tables, written out. -/
theorem styleKeys_eq : styleKeys =
    ["z-index", "horizontal-align", "vertical-align", "x", "y", "width", "height", "max-width",
      "max-height", "min-width", "min-height", "margin", "padding", "overflow", "columns", "row",
      "col", "row-span", "col-span", "scrollbar-width",
      "color", "background-color", "opacity", "font-size", "font-family", "font-style",
      "font-weight", "font-stretch", "font-variant", "text-decoration", "baseline-shift",
      "text-align", "text-anchor", "letter-spacing", "word-spacing", "line-height", "white-space",
      "unicode-bidi", "direction", "writing-mode", "glyph-orientation-vertical",
      "glyph-orientation-horizontal", "text-indent", "para-spacing", "tab-size",
      "border-style", "border-width", "border-radius", "border-color",
      "display", "visible", "inactive", "pointer-events",
      "outline-style", "outline-width", "outline-radius", "outline-color",
      "box-shadow.h-offset", "box-shadow.v-offset", "box-shadow.blur", "box-shadow.spread",
      "box-shadow.color", "box-shadow.inset"] := rfl

/-- No key is in two tables, and every key has its field in `fieldTable`. -/
theorem styleKeys_nodup : styleKeys.Nodup ∧ (fieldTable.map Prod.fst).Perm styleKeys := by
  constructor <;> decide

/-- A key that is not in a table is not found there. -/
theorem lookup_eq_none_of_not_mem {β : Type} (key : String) (tbl : List (String × β))
    (h : key ∉ tbl.map Prod.fst) : tbl.lookup key = none := by
  induction tbl with
  | nil => rfl
  | cons e rest ih =>
    obtain ⟨k, f⟩ := e
    simp only [List.map_cons, List.mem_cons, not_or] at h
    have hne : (key == k) = false := by simpa using h.1
    simp only [List.lookup, hne]
    exact ih h.2

/-- The loop body leaves the memory alone for a key that is empty, begins with one of
`#`, `.`, `:`, `_`, or has no setter. -/
theorem StyleFromProps.body_ignores (env : Env) (h : Heap) (s : StylePtr) (par : Option StylePtr)
    (key : String) (val : Iface) (vp : Option Viewport2D)
    (hkey : key = "" ∨ (∃ c ∈ ['#', '.', ':', '_'], key.toList.head? = some c) ∨
      key ∉ styleKeys) :
    StyleFromProps.body env h s par key val vp = some (h, []) := by
  unfold StyleFromProps.body
  split_ifs with h0 h1
  · rfl
  · rfl
  · rcases hkey with rfl | ⟨c, hc, hhead⟩ | hnot
    · exact absurd rfl h0
    · exfalso
      apply h1
      obtain ⟨cs⟩ := key
      cases cs with
      | nil => simp at hhead
      | cons d ds =>
        have hd : d = c := by simpa using hhead
        subst hd
        have hget : String.get ⟨d :: ds⟩ 0 = d := by
          simp [String.get, String.utf8GetAux]
        rw [hget]
        simpa using hc
    · simp only [styleKeys, List.mem_append, not_or] at hnot
      obtain ⟨⟨⟨⟨⟨⟨hl, hf⟩, ht⟩, hb⟩, hs⟩, ho⟩, hsh⟩ := hnot
      rw [lookup_eq_none_of_not_mem key _ hl, lookup_eq_none_of_not_mem key _ hf,
        lookup_eq_none_of_not_mem key _ ht, lookup_eq_none_of_not_mem key _ hb,
        lookup_eq_none_of_not_mem key _ hs, lookup_eq_none_of_not_mem key _ ho,
        lookup_eq_none_of_not_mem key _ hsh]

/-- C7: `StyleFromProps` ignores every property it has no setter for: when every key of
the props is empty, or begins with one of `#`, `.`, `:`, `_`, or is not a key of any of
the seven dispatch tables, the call returns with the style (indeed the whole memory)
as before and reports nothing, whatever the values are. -/
theorem StyleFromProps_ignores_unknown (env : Env) (h : Heap) (s : StylePtr)
    (par : Option StylePtr) (props : List (String × Iface)) (vp : Option Viewport2D)
    (hprops : ∀ kv ∈ props, kv.1 = "" ∨
      (∃ c ∈ ['#', '.', ':', '_'], kv.1.toList.head? = some c) ∨ kv.1 ∉ styleKeys) :
    Style.StyleFromProps env h s par props vp = some (h, []) ∧
      ∀ h', (∃ log, Style.StyleFromProps env h s par props vp = some (h', log)) → h' s = h s := by
  have key : Style.StyleFromProps env h s par props vp = some (h, []) := by
    induction props with
    | nil => rfl
    | cons kv rest ih =>
      obtain ⟨k, v⟩ := kv
      have hk := hprops (k, v) (List.mem_cons_self _ _)
      have hrest := ih (fun kv hkv => hprops kv (List.mem_cons_of_mem _ hkv))
      simp only [Style.StyleFromProps, StyleFromProps.body_ignores env h s par k v vp hk, hrest,
        List.append_nil]
  refine ⟨key, ?_⟩
  rintro h' ⟨log, hrun⟩
  rw [key] at hrun
  simp only [Option.some.injEq, Prod.mk.injEq] at hrun
  rw [← hrun.1]

/-- C7 at the props `"": 1, "#id": 2, ".class": 3, ":hover": 4, "_priv": 5, "flavour": 6`. -/
theorem StyleFromProps_ignores_unknown_witness :
    Style.StyleFromProps Env.sample (fun _ => Style.zero) ⟨1⟩ (some ⟨2⟩)
        [("", .int 1), ("#id", .int 2), (".class", .int 3), (":hover", .int 4),
          ("_priv", .int 5), ("flavour", .str "initial")] none =
      some ((fun _ => Style.zero), []) :=
  (StyleFromProps_ignores_unknown Env.sample (fun _ => Style.zero) ⟨1⟩ (some ⟨2⟩)
    [("", .int 1), ("#id", .int 2), (".class", .int 3), (":hover", .int 4),
      ("_priv", .int 5), ("flavour", .str "initial")] none (by decide)).1

/-- C2: for every key of the seven dispatch tables, every style `s` and every non-nil
parent `par`, `s.StyleFromProps(par, {key: "inherit"}, vp)` returns, the field of `s`
that the key addresses is afterwards equal to the same field of `par` (for a unit-valued
field the whole value: number, unit and dots), `par` is unchanged, and so is every style
other than `s`.  `s` and `par` may be the same style. -/
theorem StyleFromProps_inherit (env : Env) (h : Heap) (s par : StylePtr)
    (vp : Option Viewport2D) (key : String) (hkey : key ∈ styleKeys) :
    ∃ h', Style.StyleFromProps env h s (some par) [(key, .str "inherit")] vp = some (h', []) ∧
      fieldOf key (h' s) = fieldOf key (h par) ∧ h' par = h par ∧
      ∀ q, q ≠ s → h' q = h q := by
  revert key
  rw [styleKeys_eq]
  simp only [List.forall_mem_cons]
  refine ⟨?_, ?_, ?_, ?_, ?_, ?_, ?_, ?_, ?_, ?_, ?_, ?_, ?_, ?_, ?_, ?_, ?_, ?_, ?_, ?_, ?_,
    ?_, ?_, ?_, ?_, ?_, ?_, ?_, ?_, ?_, ?_, ?_, ?_, ?_, ?_, ?_, ?_, ?_, ?_, ?_, ?_, ?_, ?_, ?_,
    ?_, ?_, ?_, ?_, ?_, ?_, ?_, ?_, ?_, ?_, ?_, ?_, ?_, ?_, ?_, ?_, ?_, ?_, ?_, ?_⟩
  all_goals first
    | (intro x hx; cases hx)
    | (refine ⟨_, rfl, ?_, ?_, ?_⟩
       · simp [Heap.set, fieldOf, fieldTable, List.lookup]
       · by_cases hps : par = s
         · subst hps; simp [Heap.set]
         · simp [Heap.set, hps]
       · intro q hq
         simp [Heap.set, hq])

/-- C2 at the key "width", with distinct `s` and `par`: the width of `s` becomes the
2pt (12 dots) of the parent. -/
theorem StyleFromProps_inherit_witness :
    ∃ h', Style.StyleFromProps Env.sample
        (fun q => if q = ⟨2⟩ then Style.sampleWide else Style.zero)
        ⟨1⟩ (some ⟨2⟩) [("width", .str "inherit")] none = some (h', []) ∧
      fieldOf "width" (h' ⟨1⟩) = .value ⟨2, .Pt, 12⟩ ∧
      h' ⟨2⟩ = Style.sampleWide ∧
      ∀ q, q ≠ ⟨1⟩ → h' q = (if q = ⟨2⟩ then Style.sampleWide else Style.zero) :=
  StyleFromProps_inherit Env.sample
    (fun q => if q = ⟨2⟩ then Style.sampleWide else Style.zero)
    ⟨1⟩ ⟨2⟩ none "width" (by decide)

/-! ### "initial" -/

set_option maxHeartbeats 1600000 in
/-- What "initial" does for a key of the tables: the call returns and reports nothing,
the addressed field becomes `initialField` of the field before, and no other style
changes. -/
theorem StyleFromProps_initial_field (env : Env) (h : Heap) (s : StylePtr)
    (par : Option StylePtr) (vp : Option Viewport2D) (key : String) (hkey : key ∈ styleKeys) :
    ∃ h', Style.StyleFromProps env h s par [(key, .str "initial")] vp = some (h', []) ∧
      fieldOf key (h' s) = initialField env key (fieldOf key (h s)) ∧
      ∀ q, q ≠ s → h' q = h q := by
  revert key
  rw [styleKeys_eq]
  simp only [List.forall_mem_cons]
  refine ⟨?_, ?_, ?_, ?_, ?_, ?_, ?_, ?_, ?_, ?_, ?_, ?_, ?_, ?_, ?_, ?_, ?_, ?_, ?_, ?_, ?_,
    ?_, ?_, ?_, ?_, ?_, ?_, ?_, ?_, ?_, ?_, ?_, ?_, ?_, ?_, ?_, ?_, ?_, ?_, ?_, ?_, ?_, ?_, ?_,
    ?_, ?_, ?_, ?_, ?_, ?_, ?_, ?_, ?_, ?_, ?_, ?_, ?_, ?_, ?_, ?_, ?_, ?_, ?_, ?_⟩
  all_goals first
    | (intro x hx; cases hx)
    | (cases par <;>
        (refine ⟨_, rfl, ?_, ?_⟩
         · simp [Heap.set, fieldOf, fieldTable, List.lookup]; rfl
         · intro q hq
           simp [Heap.set, hq]))

/-- Every key that is reset neither by `Val = 0` nor through a method has a constant
default. -/
theorem initialDefaults_lookup (env : Env) (key : String) (hkey : key ∈ styleKeys)
    (hn : key ∉ numberResetKeys) (hm : key ∉ methodResetKeys) :
    ∃ d, (initialDefaults env).lookup key = some d := by
  revert key
  rw [styleKeys_eq]
  simp only [List.forall_mem_cons]
  refine ⟨?_, ?_, ?_, ?_, ?_, ?_, ?_, ?_, ?_, ?_, ?_, ?_, ?_, ?_, ?_, ?_, ?_, ?_, ?_, ?_, ?_,
    ?_, ?_, ?_, ?_, ?_, ?_, ?_, ?_, ?_, ?_, ?_, ?_, ?_, ?_, ?_, ?_, ?_, ?_, ?_, ?_, ?_, ?_, ?_,
    ?_, ?_, ?_, ?_, ?_, ?_, ?_, ?_, ?_, ?_, ?_, ?_, ?_, ?_, ?_, ?_, ?_, ?_, ?_, ?_⟩
  all_goals first
    | (intro x hx; cases hx)
    | (intro hn hm
       first
       | exact absurd (by decide) hn
       | exact absurd (by decide) hm
       | exact ⟨_, rfl⟩)

/-- For a key reset by `Val = 0`, the field is unit-valued and `initialField` zeroes its
number only. -/
theorem initialField_number (env : Env) (key : String) (s : Style)
    (hn : key ∈ numberResetKeys) :
    ∃ v, fieldOf key s = .value v ∧
      initialField env key (fieldOf key s) = .value { v with Val := 0 } := by
  revert key
  simp only [numberResetKeys, List.forall_mem_cons]
  refine ⟨?_, ?_, ?_, ?_, ?_, ?_, ?_, ?_, ?_, ?_, ?_, ?_, ?_, ?_, ?_, ?_, ?_, ?_, ?_, ?_, ?_,
    ?_⟩
  all_goals first
    | (intro x hx; cases hx)
    | exact ⟨_, rfl, rfl⟩

/-- The "initial" branch of a key reset by `Val = 0` gives the same style whatever the
number of the field was before, and whatever the parents are. -/
theorem StyleFromProps_initial_setNumber (env : Env) (h : Heap) (s : StylePtr)
    (par par' : Option StylePtr) (vp vp' : Option Viewport2D) (x : F32) (key : String)
    (hn : key ∈ numberResetKeys) :
    ∃ h' g2, Style.StyleFromProps env h s par [(key, .str "initial")] vp = some (h', []) ∧
      Style.StyleFromProps env (h.set s (setNumber key x (h s))) s par'
        [(key, .str "initial")] vp' = some (g2, []) ∧ g2 s = h' s := by
  revert key
  simp only [numberResetKeys, List.forall_mem_cons]
  refine ⟨?_, ?_, ?_, ?_, ?_, ?_, ?_, ?_, ?_, ?_, ?_, ?_, ?_, ?_, ?_, ?_, ?_, ?_, ?_, ?_, ?_,
    ?_⟩
  all_goals first
    | (intro x hx; cases hx)
    | (cases par <;> cases par' <;>
        (refine ⟨_, _, rfl, rfl, ?_⟩
         simp [Heap.set, setNumber]))

/-- C3, amended: for every key of the dispatch tables "initial" returns, reports
nothing and never consults the parent.  For a key whose default is an assigned
constant the whole field becomes that constant (the entry of `initialDefaults`), the
same whatever the style and the parent were.  For a unit-valued key reset by `Val = 0`
only the number becomes 0, the unit and the dots stay as they were, so that two styles
that differ only in the previous number of that field are equal afterwards.  For the
keys reset through a method the field becomes the result of that method on the field
before: `Set(2, Px)` for "min-width" and "min-height", `Set(12, Pt)` for "font-size",
`SetColor(color.Black)` for the four colour keys; so equal fields before give equal
fields after, and the field is one fixed value, whatever it held before, whenever
`Value.Set` and `Color.SetColor` overwrite the whole of their receiver. -/
theorem StyleFromProps_initial (env : Env) (h1 h2 : Heap) (s1 s2 : StylePtr)
    (par1 par2 : Option StylePtr) (vp1 vp2 : Option Viewport2D) (x : F32) (key : String)
    (hkey : key ∈ styleKeys) :
    ∃ h1' h2',
      Style.StyleFromProps env h1 s1 par1 [(key, .str "initial")] vp1 = some (h1', []) ∧
      Style.StyleFromProps env h2 s2 par2 [(key, .str "initial")] vp2 = some (h2', []) ∧
      (key ∉ numberResetKeys → key ∉ methodResetKeys →
        ∃ d, (initialDefaults env).lookup key = some d ∧
          fieldOf key (h1' s1) = d ∧ fieldOf key (h2' s2) = d) ∧
      (key ∈ numberResetKeys →
        (∃ v, fieldOf key (h1 s1) = .value v ∧
          fieldOf key (h1' s1) = .value { v with Val := 0 }) ∧
        (h2 = h1.set s1 (setNumber key x (h1 s1)) → s2 = s1 → h2' s2 = h1' s1)) ∧
      (key ∈ methodResetKeys → fieldOf key (h1 s1) = fieldOf key (h2 s2) →
        fieldOf key (h1' s1) = fieldOf key (h2' s2)) ∧
      (key = "min-width" ∨ key = "min-height" →
        ∃ v, fieldOf key (h1 s1) = .value v ∧
          fieldOf key (h1' s1) = .value (env.Set v 2 units.Unit.Px)) ∧
      (key = "font-size" →
        ∃ v, fieldOf key (h1 s1) = .value v ∧
          fieldOf key (h1' s1) = .value (env.Set v 12 units.Unit.Pt)) ∧
      (key = "color" ∨ key = "border-color" ∨ key = "outline-color" ∨
          key = "box-shadow.color" →
        ∃ c, fieldOf key (h1 s1) = .color c ∧
          fieldOf key (h1' s1) = .color (env.SetColor c color.Color.Black)) ∧
      (key ∈ methodResetKeys →
        (∀ v v' y u, env.Set v y u = env.Set v' y u) →
        (∀ c c' ci, env.SetColor c ci = env.SetColor c' ci) →
        fieldOf key (h1' s1) = fieldOf key (h2' s2)) := by
  obtain ⟨h1', e1, f1, -⟩ := StyleFromProps_initial_field env h1 s1 par1 vp1 key hkey
  obtain ⟨h2', e2, f2, -⟩ := StyleFromProps_initial_field env h2 s2 par2 vp2 key hkey
  refine ⟨h1', h2', e1, e2, ?_, ?_, ?_, ?_, ?_, ?_, ?_⟩
  · intro hn hm
    obtain ⟨d, hd⟩ := initialDefaults_lookup env key hkey hn hm
    refine ⟨d, hd, ?_, ?_⟩
    · rw [f1]
      simp only [initialField, hd]
    · rw [f2]
      simp only [initialField, hd]
  · intro hn
    refine ⟨?_, ?_⟩
    · obtain ⟨v, hv, hv'⟩ := initialField_number env key (h1 s1) hn
      exact ⟨v, hv, by rw [f1, hv']⟩
    · rintro rfl rfl
      obtain ⟨g1, g2, eg1, eg2, hg⟩ :=
        StyleFromProps_initial_setNumber env h1 s2 par1 par2 vp1 vp2 x key hn
      rw [e1] at eg1
      rw [e2] at eg2
      simp only [Option.some.injEq, Prod.mk.injEq, and_true] at eg1 eg2
      rw [eg1, eg2]
      exact hg
  · intro _ hf
    rw [f1, f2, hf]
  · rintro (rfl | rfl)
    · exact ⟨_, rfl, f1⟩
    · exact ⟨_, rfl, f1⟩
  · rintro rfl
    exact ⟨_, rfl, f1⟩
  · rintro (rfl | rfl | rfl | rfl)
    · exact ⟨_, rfl, f1⟩
    · exact ⟨_, rfl, f1⟩
    · exact ⟨_, rfl, f1⟩
    · exact ⟨_, rfl, f1⟩
  · intro hm hSet hCol
    simp only [methodResetKeys, List.mem_cons, List.mem_nil_iff, or_false] at hm
    rw [f1, f2]
    rcases hm with rfl | rfl | rfl | rfl | rfl | rfl | rfl
    · exact congrArg Iface.value (hSet _ _ _ _)
    · exact congrArg Iface.value (hSet _ _ _ _)
    · exact congrArg Iface.value (hSet _ _ _ _)
    · exact congrArg Iface.color (hCol _ _ _)
    · exact congrArg Iface.color (hCol _ _ _)
    · exact congrArg Iface.color (hCol _ _ _)
    · exact congrArg Iface.color (hCol _ _ _)

/-- C3 at the key "display" (constant default `true`, from two different styles and
parents), at the key "width" (the width 2pt with 12 dots becomes 0pt with 12 dots) and
at the key "min-width" (the minimum width 0px becomes 2px). -/
theorem StyleFromProps_initial_witness :
    (∃ h1' h2',
      Style.StyleFromProps Env.sample (fun _ => Style.zero) ⟨1⟩ none
        [("display", .str "initial")] none = some (h1', []) ∧
      Style.StyleFromProps Env.sample (fun _ => Style.sampleWide) ⟨2⟩ (some ⟨3⟩)
        [("display", .str "initial")] none = some (h2', []) ∧
      fieldOf "display" (h1' ⟨1⟩) = .bool true ∧ fieldOf "display" (h2' ⟨2⟩) = .bool true) ∧
    (∃ h1', Style.StyleFromProps Env.sample (fun _ => Style.sampleWide) ⟨1⟩ none
        [("width", .str "initial")] none = some (h1', []) ∧
      fieldOf "width" (h1' ⟨1⟩) = .value ⟨0, .Pt, 12⟩) ∧
    (∃ h1', Style.StyleFromProps Env.sample (fun _ => Style.zero) ⟨1⟩ none
        [("min-width", .str "initial")] none = some (h1', []) ∧
      fieldOf "min-width" (h1' ⟨1⟩) = .value ⟨2, .Px, 0⟩) := by
  refine ⟨?_, ?_, ?_⟩
  · obtain ⟨h1', h2', e1, e2, hc, -, -⟩ := StyleFromProps_initial Env.sample
      (fun _ => Style.zero) (fun _ => Style.sampleWide) ⟨1⟩ ⟨2⟩ none (some ⟨3⟩) none none 0
      "display" (by decide)
    obtain ⟨d, hd, hd1, hd2⟩ := hc (by decide) (by decide)
    have hdv : d = .bool true := by
      have hl : (initialDefaults Env.sample).lookup "display" = some (.bool true) := rfl
      rw [hl] at hd
      exact (Option.some.inj hd).symm
    exact ⟨h1', h2', e1, e2, by rw [hd1, hdv], by rw [hd2, hdv]⟩
  · obtain ⟨h1', _, e1, _, _, hn, _⟩ := StyleFromProps_initial Env.sample
      (fun _ => Style.sampleWide) (fun _ => Style.zero) ⟨1⟩ ⟨2⟩ none none none none 0
      "width" (by decide)
    obtain ⟨⟨v, hv, hv'⟩, -⟩ := hn (by decide)
    have hvv : v = ⟨2, .Pt, 12⟩ := by
      have hl : fieldOf "width" Style.sampleWide = .value ⟨2, .Pt, 12⟩ := rfl
      rw [hl] at hv
      exact (Iface.value.inj hv).symm
    exact ⟨h1', e1, by rw [hv', hvv]⟩
  · obtain ⟨h1', _, e1, _, _, _, _, hm, _⟩ := StyleFromProps_initial Env.sample
      (fun _ => Style.zero) (fun _ => Style.zero) ⟨1⟩ ⟨2⟩ none none none none 0
      "min-width" (by decide)
    obtain ⟨v, hv, hv'⟩ := hm (Or.inl rfl)
    have hvv : v = ⟨0, .Px, 0⟩ := by
      have hl : fieldOf "min-width" Style.zero = .value ⟨0, .Px, 0⟩ := rfl
      rw [hl] at hv
      exact (Iface.value.inj hv).symm
    exact ⟨h1', e1, by rw [hv', hvv]; rfl⟩

/-- C3 as stated fails at "width": `Style.zero` and `Style.sampleWide` differ only in the
number, unit and dots of `Layout.Width` (0px with 0 dots against 2pt with 12 dots);
after "initial" the first has the width 0px with 0 dots and the second 0pt with 12
dots, so the field is not one fixed value and the two styles are not equal. -/
theorem StyleFromProps_initial_keeps_unit_and_dots :
    Style.sampleWide =
        { Style.zero with Layout := { Style.zero.Layout with Width := ⟨2, .Pt, 12⟩ } } ∧
      (Style.StyleFromProps Env.sample (fun _ => Style.zero) ⟨1⟩ none
          [("width", .str "initial")] none).map (fun r => fieldOf "width" (r.1 ⟨1⟩)) =
        some (.value ⟨0, .Px, 0⟩) ∧
      (Style.StyleFromProps Env.sample (fun _ => Style.sampleWide) ⟨1⟩ none
          [("width", .str "initial")] none).map (fun r => fieldOf "width" (r.1 ⟨1⟩)) =
        some (.value ⟨0, .Pt, 12⟩) ∧
      (Style.StyleFromProps Env.sample (fun _ => Style.zero) ⟨1⟩ none
          [("width", .str "initial")] none).map (fun r => r.1 ⟨1⟩) ≠
        (Style.StyleFromProps Env.sample (fun _ => Style.sampleWide) ⟨1⟩ none
          [("width", .str "initial")] none).map (fun r => r.1 ⟨1⟩) := by
  refine ⟨rfl, by decide, by decide, by decide⟩

/-! ### ToDots -/

/-- Every field of a `Style` is addressed by a key: two styles with equal fields at
every key are equal. -/
theorem Style.ext_fieldOf (a b : Style)
    (h : ∀ key ∈ styleKeys, fieldOf key a = fieldOf key b) : a = b := by
  rw [styleKeys_eq] at h
  simp only [List.forall_mem_cons] at h
  simp [fieldOf, fieldTable, List.lookup] at h
  rcases a with ⟨_, _, _, _, ⟨⟩, ⟨⟩, ⟨⟩, ⟨⟩, ⟨⟩, ⟨⟩⟩
  rcases b with ⟨_, _, _, _, ⟨⟩, ⟨⟩, ⟨⟩, ⟨⟩, ⟨⟩, ⟨⟩⟩
  simp_all

/-- Go `Style.ToDots` written out field by field. -/
theorem Style.ToDots_eq (env : Env) (s : Style) (uc : units.Context) :
    s.ToDots env uc =
      { s with
        Layout := { s.Layout with
          PosX := env.ToDots uc s.Layout.PosX
          PosY := env.ToDots uc s.Layout.PosY
          Width := env.ToDots uc s.Layout.Width
          Height := env.ToDots uc s.Layout.Height
          MaxWidth := env.ToDots uc s.Layout.MaxWidth
          MaxHeight := env.ToDots uc s.Layout.MaxHeight
          MinWidth := env.ToDots uc s.Layout.MinWidth
          MinHeight := env.ToDots uc s.Layout.MinHeight
          Margin := env.ToDots uc s.Layout.Margin
          Padding := env.ToDots uc s.Layout.Padding
          ScrollBarWidth := env.ToDots uc s.Layout.ScrollBarWidth }
        Font := { s.Font with Size := env.ToDots uc s.Font.Size }
        Text := { s.Text with
          LetterSpacing := env.ToDots uc s.Text.LetterSpacing
          WordSpacing := env.ToDots uc s.Text.WordSpacing
          Indent := env.ToDots uc s.Text.Indent
          ParaSpacing := env.ToDots uc s.Text.ParaSpacing }
        Border := { s.Border with
          Width := env.ToDots uc s.Border.Width
          Radius := env.ToDots uc s.Border.Radius }
        Outline := { s.Outline with
          Width := env.ToDots uc s.Outline.Width
          Radius := env.ToDots uc s.Outline.Radius }
        BoxShadow := { s.BoxShadow with
          HOffset := env.ToDots uc s.BoxShadow.HOffset
          VOffset := env.ToDots uc s.BoxShadow.VOffset
          Blur := env.ToDots uc s.BoxShadow.Blur
          Spread := env.ToDots uc s.BoxShadow.Spread } } := rfl

set_option maxHeartbeats 4000000 in
/-- A setter of a unit-valued key hands a value that is not a string to `SetIFace` and
assigns the result to the field. -/
theorem StyleFromProps_unit_SetIFace (env : Env) (h : Heap) (s : StylePtr)
    (par : Option StylePtr) (vp : Option Viewport2D) (val : Iface) (key : String)
    (hval : ∀ str, val ≠ .str str) (hkey : key ∈ unitKeys) :
    ∃ h' v, Style.StyleFromProps env h s par [(key, val)] vp = some (h', []) ∧
      fieldOf key (h s) = .value v ∧ fieldOf key (h' s) = .value (env.SetIFace v val key) := by
  revert key
  simp only [unitKeys, List.forall_mem_cons]
  refine ⟨?_, ?_, ?_, ?_, ?_, ?_, ?_, ?_, ?_, ?_, ?_, ?_, ?_, ?_, ?_, ?_, ?_, ?_, ?_, ?_, ?_,
    ?_, ?_, ?_, ?_⟩
  all_goals first
    | (intro x hx; cases hx)
    | (cases par <;> cases val <;>
        first
        | exact absurd rfl (hval _)
        | (refine ⟨_, _, rfl, rfl, ?_⟩
           simp [Heap.set, fieldOf, fieldTable, List.lookup]))

/-- C8: `Style.ToDots` converts every unit-valued field that a property can set.  The
unit-valued keys are the 24 of `unitKeys` (the 11 layout lengths, `Font.Size`, the 4
text lengths, `Width` and `Radius` of `Border` and of `Outline`, the 4 shadow lengths):
their setters assign the field through `SetIFace`, and after `s.ToDots(uc)` the field
is `ToDots(uc)` of the field before, applied once.  The field of every other key is
not unit-valued and is unchanged; every field of a `Style` is the field of a key
(`Style.ext_fieldOf`). -/
theorem Style_ToDots_spec (env : Env) (s : Style) (uc : units.Context) (key : String)
    (hkey : key ∈ styleKeys) :
    (key ∈ unitKeys →
      (∃ v, fieldOf key s = .value v ∧
        fieldOf key (s.ToDots env uc) = .value (env.ToDots uc v)) ∧
      ∀ (h : Heap) (sp : StylePtr) (par : Option StylePtr) (vp : Option Viewport2D)
        (val : Iface), (∀ str, val ≠ .str str) →
        ∃ h' v, Style.StyleFromProps env h sp par [(key, val)] vp = some (h', []) ∧
          fieldOf key (h sp) = .value v ∧
          fieldOf key (h' sp) = .value (env.SetIFace v val key)) ∧
    (key ∉ unitKeys → fieldOf key (s.ToDots env uc) = fieldOf key s ∧
      ∀ v, fieldOf key s ≠ .value v) := by
  refine ⟨fun hu => ⟨?_, fun h sp par vp val hval =>
    StyleFromProps_unit_SetIFace env h sp par vp val key hval hu⟩, ?_⟩
  · clear hkey
    revert key
    simp only [unitKeys, List.forall_mem_cons]
    refine ⟨?_, ?_, ?_, ?_, ?_, ?_, ?_, ?_, ?_, ?_, ?_, ?_, ?_, ?_, ?_, ?_, ?_, ?_, ?_, ?_, ?_,
      ?_, ?_, ?_, ?_⟩
    all_goals first
      | (intro x hx; cases hx)
      | exact ⟨_, rfl, rfl⟩
  · revert key
    rw [styleKeys_eq]
    simp only [List.forall_mem_cons]
    refine ⟨?_, ?_, ?_, ?_, ?_, ?_, ?_, ?_, ?_, ?_, ?_, ?_, ?_, ?_, ?_, ?_, ?_, ?_, ?_, ?_, ?_,
      ?_, ?_, ?_, ?_, ?_, ?_, ?_, ?_, ?_, ?_, ?_, ?_, ?_, ?_, ?_, ?_, ?_, ?_, ?_, ?_, ?_, ?_, ?_,
      ?_, ?_, ?_, ?_, ?_, ?_, ?_, ?_, ?_, ?_, ?_, ?_, ?_, ?_, ?_, ?_, ?_, ?_, ?_, ?_⟩
    all_goals first
      | (intro x hx; cases hx)
      | exact fun hn => absurd (by decide) hn
      | (refine fun _ => ⟨rfl, fun v hv => ?_⟩
         simp [fieldOf, fieldTable, List.lookup] at hv)

/-- C8 at the key "width" of `Style.sampleWide` (2pt becomes 2pt with 2 dots under the
sample `ToDots`) and at the key "display". -/
theorem Style_ToDots_spec_witness :
    (∃ v, fieldOf "width" Style.sampleWide = .value v ∧
        fieldOf "width" (Style.sampleWide.ToDots Env.sample ⟨0⟩) =
          .value (Env.sample.ToDots ⟨0⟩ v)) ∧
      fieldOf "display" (Style.sampleWide.ToDots Env.sample ⟨0⟩) =
        fieldOf "display" Style.sampleWide :=
  ⟨((Style_ToDots_spec Env.sample Style.sampleWide ⟨0⟩ "width" (by decide)).1 (by decide)).1,
    ((Style_ToDots_spec Env.sample Style.sampleWide ⟨0⟩ "display" (by decide)).2
      (by decide)).1⟩

/-! ### One property at a time -/

/-- A call with a single property is one run of the loop body. -/
theorem StyleFromProps_single (env : Env) (h : Heap) (s : StylePtr) (par : Option StylePtr)
    (key : String) (val : Iface) (vp : Option Viewport2D) :
    Style.StyleFromProps env h s par [(key, val)] vp =
      StyleFromProps.body env h s par key val vp := by
  cases hb : StyleFromProps.body env h s par key val vp with
  | none => simp [Style.StyleFromProps, hb]
  | some r =>
    obtain ⟨h1, log1⟩ := r
    simp [Style.StyleFromProps, hb]

/-- The loop body at a key whose setter is found in `StyleLayoutFuncs`: the setter runs
on the `Layout` part of `s` with the `Layout` part of the parent. -/
theorem StyleFromProps.body_layout (env : Env) (h : Heap) (s : StylePtr) (par : Option StylePtr)
    (key : String) (val : Iface) (vp : Option Viewport2D) (sfunc : StyleFunc LayoutStyle)
    (h0 : key.length ≠ 0)
    (h1 : ¬ (key.get 0 = '#' ∨ key.get 0 = '.' ∨ key.get 0 = ':' ∨ key.get 0 = '_'))
    (hl : StyleLayoutFuncs.lookup key = some sfunc) :
    StyleFromProps.body env h s par key val vp =
      match sfunc env (h s).Layout key val (subPar h par (fun p => p.Layout)) vp with
      | some (obj, log) => some (h.set s { h s with Layout := obj }, log)
      | none => none := by
  unfold StyleFromProps.body
  rw [if_neg h0, if_neg h1]
  simp only [hl]
  cases par <;> rfl

/-- The loop body at a key whose setter is found in `StyleFontFuncs`: the setter runs
on the `Font` part of `s` with the `Font` part of the parent. -/
theorem StyleFromProps.body_font (env : Env) (h : Heap) (s : StylePtr) (par : Option StylePtr)
    (key : String) (val : Iface) (vp : Option Viewport2D) (sfunc : StyleFunc FontStyle)
    (h0 : key.length ≠ 0)
    (h1 : ¬ (key.get 0 = '#' ∨ key.get 0 = '.' ∨ key.get 0 = ':' ∨ key.get 0 = '_'))
    (hn1 : StyleLayoutFuncs.lookup key = none)
    (hl : StyleFontFuncs.lookup key = some sfunc) :
    StyleFromProps.body env h s par key val vp =
      match sfunc env (h s).Font key val (subPar h par (fun p => p.Font)) vp with
      | some (obj, log) => some (h.set s { h s with Font := obj }, log)
      | none => none := by
  unfold StyleFromProps.body
  rw [if_neg h0, if_neg h1]
  simp only [hn1, hl]
  cases par <;> rfl

/-- The loop body at a key whose setter is found in `StyleTextFuncs`: the setter runs
on the `Text` part of `s` with the `Text` part of the parent. -/
theorem StyleFromProps.body_text (env : Env) (h : Heap) (s : StylePtr) (par : Option StylePtr)
    (key : String) (val : Iface) (vp : Option Viewport2D) (sfunc : StyleFunc TextStyle)
    (h0 : key.length ≠ 0)
    (h1 : ¬ (key.get 0 = '#' ∨ key.get 0 = '.' ∨ key.get 0 = ':' ∨ key.get 0 = '_'))
    (hn1 : StyleLayoutFuncs.lookup key = none)
    (hn2 : StyleFontFuncs.lookup key = none)
    (hl : StyleTextFuncs.lookup key = some sfunc) :
    StyleFromProps.body env h s par key val vp =
      match sfunc env (h s).Text key val (subPar h par (fun p => p.Text)) vp with
      | some (obj, log) => some (h.set s { h s with Text := obj }, log)
      | none => none := by
  unfold StyleFromProps.body
  rw [if_neg h0, if_neg h1]
  simp only [hn1, hn2, hl]
  cases par <;> rfl

/-- The loop body at a key whose setter is found in `StyleBorderFuncs`: the setter runs
on the `Border` part of `s` with the `Border` part of the parent. -/
theorem StyleFromProps.body_border (env : Env) (h : Heap) (s : StylePtr) (par : Option StylePtr)
    (key : String) (val : Iface) (vp : Option Viewport2D) (sfunc : StyleFunc BorderStyle)
    (h0 : key.length ≠ 0)
    (h1 : ¬ (key.get 0 = '#' ∨ key.get 0 = '.' ∨ key.get 0 = ':' ∨ key.get 0 = '_'))
    (hn1 : StyleLayoutFuncs.lookup key = none)
    (hn2 : StyleFontFuncs.lookup key = none)
    (hn3 : StyleTextFuncs.lookup key = none)
    (hl : StyleBorderFuncs.lookup key = some sfunc) :
    StyleFromProps.body env h s par key val vp =
      match sfunc env (h s).Border key val (subPar h par (fun p => p.Border)) vp with
      | some (obj, log) => some (h.set s { h s with Border := obj }, log)
      | none => none := by
  unfold StyleFromProps.body
  rw [if_neg h0, if_neg h1]
  simp only [hn1, hn2, hn3, hl]
  cases par <;> rfl

/-- The loop body at a key whose setter is found in `StyleOutlineFuncs`: the setter runs
on the `Outline` part of `s` with the `Outline` part of the parent. -/
theorem StyleFromProps.body_outline (env : Env) (h : Heap) (s : StylePtr) (par : Option StylePtr)
    (key : String) (val : Iface) (vp : Option Viewport2D) (sfunc : StyleFunc BorderStyle)
    (h0 : key.length ≠ 0)
    (h1 : ¬ (key.get 0 = '#' ∨ key.get 0 = '.' ∨ key.get 0 = ':' ∨ key.get 0 = '_'))
    (hn1 : StyleLayoutFuncs.lookup key = none)
    (hn2 : StyleFontFuncs.lookup key = none)
    (hn3 : StyleTextFuncs.lookup key = none)
    (hn4 : StyleBorderFuncs.lookup key = none)
    (hn5 : StyleStyleFuncs.lookup key = none)
    (hl : StyleOutlineFuncs.lookup key = some sfunc) :
    StyleFromProps.body env h s par key val vp =
      match sfunc env (h s).Outline key val (subPar h par (fun p => p.Outline)) vp with
      | some (obj, log) => some (h.set s { h s with Outline := obj }, log)
      | none => none := by
  unfold StyleFromProps.body
  rw [if_neg h0, if_neg h1]
  simp only [hn1, hn2, hn3, hn4, hn5, hl]
  cases par <;> rfl

/-- The loop body at a key whose setter is found in `StyleShadowFuncs`: the setter runs
on the `BoxShadow` part of `s` with the `BoxShadow` part of the parent. -/
theorem StyleFromProps.body_shadow (env : Env) (h : Heap) (s : StylePtr) (par : Option StylePtr)
    (key : String) (val : Iface) (vp : Option Viewport2D) (sfunc : StyleFunc ShadowStyle)
    (h0 : key.length ≠ 0)
    (h1 : ¬ (key.get 0 = '#' ∨ key.get 0 = '.' ∨ key.get 0 = ':' ∨ key.get 0 = '_'))
    (hn1 : StyleLayoutFuncs.lookup key = none)
    (hn2 : StyleFontFuncs.lookup key = none)
    (hn3 : StyleTextFuncs.lookup key = none)
    (hn4 : StyleBorderFuncs.lookup key = none)
    (hn5 : StyleStyleFuncs.lookup key = none)
    (hn6 : StyleOutlineFuncs.lookup key = none)
    (hl : StyleShadowFuncs.lookup key = some sfunc) :
    StyleFromProps.body env h s par key val vp =
      match sfunc env (h s).BoxShadow key val (subPar h par (fun p => p.BoxShadow)) vp with
      | some (obj, log) => some (h.set s { h s with BoxShadow := obj }, log)
      | none => none := by
  unfold StyleFromProps.body
  rw [if_neg h0, if_neg h1]
  simp only [hn1, hn2, hn3, hn4, hn5, hn6, hl]
  cases par <;> rfl

/-- The result of `StyleInhInit` for a string that is neither "inherit" nor "initial". -/
theorem StyleInhInit_str_other {σ : Type} (str : String) (par : Par σ)
    (h1 : str ≠ "inherit") (h2 : str ≠ "initial") :
    StyleInhInit (.str str) par = (false, false) := by
  simp [StyleInhInit, h1, h2]

/-! ### Enum-valued properties -/

set_option maxHeartbeats 4000000 in
/-- C12: for every enum-valued property key and every value that is not a string (so
neither "inherit" nor "initial"): when the value has the field's enum type the field
becomes exactly that value; otherwise, when `kit.ToInt` converts it to an integer `iv`,
the field becomes the conversion `T(iv)` of `iv` to the enum type, which is the enum
with number `iv` whenever that conversion keeps the number; otherwise
`StyleSetError(key, val)` is reported, once, and the style is left unchanged.  In the
first two cases nothing is reported.  The call always returns. -/
theorem StyleFromProps_enum_nonstring (env : Env) (h : Heap) (s : StylePtr)
    (par : Option StylePtr) (vp : Option Viewport2D) (val : Iface) (key : String)
    (T : EnumType)
    (hkey : (key, T) ∈
      [("horizontal-align", EnumType.Align), ("vertical-align", .Align),
        ("overflow", .Overflow), ("font-style", .FontStyles), ("font-weight", .FontWeights),
        ("font-stretch", .FontStretch), ("font-variant", .FontVariants),
        ("text-decoration", .TextDecorations), ("baseline-shift", .BaselineShifts),
        ("text-align", .Align), ("text-anchor", .TextAnchors), ("white-space", .WhiteSpaces),
        ("unicode-bidi", .UnicodeBidi), ("direction", .TextDirections),
        ("writing-mode", .TextDirections), ("border-style", .BorderDrawStyle),
        ("outline-style", .BorderDrawStyle)])
    (hval : ∀ str, val ≠ .str str) :
    (∃ old, fieldOf key (h s) = .enum T old) ∧
    (∀ n, val = .enum T n →
      (Style.StyleFromProps env h s par [(key, val)] vp).map
          (fun r => (fieldOf key (r.1 s), r.2)) = some (.enum T n, [])) ∧
    ((∀ n, val ≠ .enum T n) → ∀ iv, env.ToInt val = some iv →
      (Style.StyleFromProps env h s par [(key, val)] vp).map
          (fun r => (fieldOf key (r.1 s), r.2)) = some (.enum T (env.EnumOfInt64 T iv), []) ∧
      (env.EnumOfInt64 T iv = iv →
        (Style.StyleFromProps env h s par [(key, val)] vp).map
          (fun r => (fieldOf key (r.1 s), r.2)) = some (.enum T iv, []))) ∧
    ((∀ n, val ≠ .enum T n) → env.ToInt val = none →
      (Style.StyleFromProps env h s par [(key, val)] vp).map (fun r => (r.1 s, r.2)) =
        some (h s, StyleSetError key val)) := by
  have both : ∀ {p q : Prop}, p → (p → q) → p ∧ q := fun hp hpq => ⟨hp, hpq hp⟩
  rw [StyleFromProps_single]
  simp only [List.mem_cons, Prod.mk.injEq, List.mem_nil_iff, or_false] at hkey
  rcases hkey with
    ⟨rfl, rfl⟩ |
    ⟨rfl, rfl⟩ |
    ⟨rfl, rfl⟩ |
    ⟨rfl, rfl⟩ |
    ⟨rfl, rfl⟩ |
    ⟨rfl, rfl⟩ |
    ⟨rfl, rfl⟩ |
    ⟨rfl, rfl⟩ |
    ⟨rfl, rfl⟩ |
    ⟨rfl, rfl⟩ |
    ⟨rfl, rfl⟩ |
    ⟨rfl, rfl⟩ |
    ⟨rfl, rfl⟩ |
    ⟨rfl, rfl⟩ |
    ⟨rfl, rfl⟩ |
    ⟨rfl, rfl⟩ |
    ⟨rfl, rfl⟩
  rw [StyleFromProps.body_layout env h s par "horizontal-align" val vp _ (by decide) (by decide) rfl]
  rotate_left
  rw [StyleFromProps.body_layout env h s par "vertical-align" val vp _ (by decide) (by decide) rfl]
  rotate_left
  rw [StyleFromProps.body_layout env h s par "overflow" val vp _ (by decide) (by decide) rfl]
  rotate_left
  rw [StyleFromProps.body_font env h s par "font-style" val vp _ (by decide) (by decide) rfl rfl]
  rotate_left
  rw [StyleFromProps.body_font env h s par "font-weight" val vp _ (by decide) (by decide) rfl rfl]
  rotate_left
  rw [StyleFromProps.body_font env h s par "font-stretch" val vp _ (by decide) (by decide) rfl rfl]
  rotate_left
  rw [StyleFromProps.body_font env h s par "font-variant" val vp _ (by decide) (by decide) rfl rfl]
  rotate_left
  rw [StyleFromProps.body_font env h s par "text-decoration" val vp _ (by decide) (by decide) rfl rfl]
  rotate_left
  rw [StyleFromProps.body_font env h s par "baseline-shift" val vp _ (by decide) (by decide) rfl rfl]
  rotate_left
  rw [StyleFromProps.body_text env h s par "text-align" val vp _ (by decide) (by decide) rfl rfl rfl]
  rotate_left
  rw [StyleFromProps.body_text env h s par "text-anchor" val vp _ (by decide) (by decide) rfl rfl rfl]
  rotate_left
  rw [StyleFromProps.body_text env h s par "white-space" val vp _ (by decide) (by decide) rfl rfl rfl]
  rotate_left
  rw [StyleFromProps.body_text env h s par "unicode-bidi" val vp _ (by decide) (by decide) rfl rfl rfl]
  rotate_left
  rw [StyleFromProps.body_text env h s par "direction" val vp _ (by decide) (by decide) rfl rfl rfl]
  rotate_left
  rw [StyleFromProps.body_text env h s par "writing-mode" val vp _ (by decide) (by decide) rfl rfl rfl]
  rotate_left
  rw [StyleFromProps.body_border env h s par "border-style" val vp _ (by decide) (by decide) rfl rfl rfl rfl]
  rotate_left
  rw [StyleFromProps.body_outline env h s par "outline-style" val vp _ (by decide) (by decide) rfl rfl rfl rfl rfl rfl]
  rotate_left
  all_goals
    generalize subPar h par _ = P
    refine ⟨⟨_, rfl⟩, ?_, ?_, ?_⟩
    · rintro n rfl
      simp [StyleInhInit, Heap.set]
      rfl
    · intro hne iv hti
      refine both ?_ (fun e hk => by rw [e, hk])
      cases val <;> (try (rename_i t n; cases t)) <;>
        simp_all [StyleInhInit, Heap.set] <;> rfl
    · intro hne hti
      cases val <;> (try (rename_i t n; cases t)) <;>
        simp_all [StyleInhInit, Heap.set, StyleSetError]

/-- C12 at the key "overflow": the integer 3 gives the enum with number 3 and no
report; a value without an integer reading is reported and leaves the style as it
was. -/
theorem StyleFromProps_enum_nonstring_witness :
    (Style.StyleFromProps Env.sample (fun _ => Style.zero) ⟨1⟩ none [("overflow", .int 3)]
        none).map (fun r => (fieldOf "overflow" (r.1 ⟨1⟩), r.2)) =
      some (.enum .Overflow 3, []) ∧
    (Style.StyleFromProps Env.sample (fun _ => Style.zero) ⟨1⟩ none [("overflow", .other 0)]
        none).map (fun r => (r.1 ⟨1⟩, r.2)) =
      some (Style.zero, [("overflow", .other 0)]) :=
  ⟨((StyleFromProps_enum_nonstring Env.sample (fun _ => Style.zero) ⟨1⟩ none none (.int 3)
      "overflow" .Overflow (by decide) (fun _ hs => by cases hs)).2.2.1
      (fun _ hs => by cases hs) 3 rfl).2 (by decide),
    (StyleFromProps_enum_nonstring Env.sample (fun _ => Style.zero) ⟨1⟩ none none (.other 0)
      "overflow" .Overflow (by decide) (fun _ hs => by cases hs)).2.2.2
      (fun _ hs => by cases hs) rfl⟩

/-! ### Defaults of the boolean and integer properties -/

/-- C13: the value "initial" resets the boolean and integer style properties to these
defaults, whatever the style held before and whatever the parent is: "display" to
true, "visible" to false, "inactive" to false, "pointer-events" to true,
"box-shadow.inset" to false, "z-index", "columns", "row", "col", "row-span" and
"col-span" to 0, and "tab-size" to 4.  The call returns and reports nothing. -/
theorem StyleFromProps_initial_bool_int (env : Env) (h : Heap) (s : StylePtr)
    (par : Option StylePtr) (vp : Option Viewport2D) (key : String) (d : Iface)
    (hkd : (key, d) ∈
      [("display", Iface.bool true), ("visible", .bool false), ("inactive", .bool false),
        ("pointer-events", .bool true), ("box-shadow.inset", .bool false), ("z-index", .int 0),
        ("columns", .int 0), ("row", .int 0), ("col", .int 0), ("row-span", .int 0),
        ("col-span", .int 0), ("tab-size", .int 4)]) :
    ∃ h', Style.StyleFromProps env h s par [(key, .str "initial")] vp = some (h', []) ∧
      fieldOf key (h' s) = d := by
  have hkey : key ∈ styleKeys := by
    simp only [List.mem_cons, Prod.mk.injEq, List.mem_nil_iff, or_false] at hkd
    rcases hkd with ⟨rfl, -⟩ | ⟨rfl, -⟩ | ⟨rfl, -⟩ | ⟨rfl, -⟩ | ⟨rfl, -⟩ | ⟨rfl, -⟩ | ⟨rfl, -⟩ |
      ⟨rfl, -⟩ | ⟨rfl, -⟩ | ⟨rfl, -⟩ | ⟨rfl, -⟩ | ⟨rfl, -⟩ <;> decide
  obtain ⟨h', e, f, -⟩ := StyleFromProps_initial_field env h s par vp key hkey
  refine ⟨h', e, ?_⟩
  rw [f]
  simp only [List.mem_cons, Prod.mk.injEq, List.mem_nil_iff, or_false] at hkd
  rcases hkd with ⟨rfl, rfl⟩ | ⟨rfl, rfl⟩ | ⟨rfl, rfl⟩ | ⟨rfl, rfl⟩ | ⟨rfl, rfl⟩ | ⟨rfl, rfl⟩ |
    ⟨rfl, rfl⟩ | ⟨rfl, rfl⟩ | ⟨rfl, rfl⟩ | ⟨rfl, rfl⟩ | ⟨rfl, rfl⟩ | ⟨rfl, rfl⟩ <;> rfl

/-- C13 at "tab-size", from a style whose tab size is 0 and with a parent. -/
theorem StyleFromProps_initial_bool_int_witness :
    ∃ h', Style.StyleFromProps Env.sample (fun _ => Style.zero) ⟨1⟩ (some ⟨2⟩)
        [("tab-size", .str "initial")] none = some (h', []) ∧
      fieldOf "tab-size" (h' ⟨1⟩) = .int 4 :=
  StyleFromProps_initial_bool_int Env.sample (fun _ => Style.zero) ⟨1⟩ (some ⟨2⟩) none
    "tab-size" (.int 4) (by decide)

/-! ### Outline and border -/

/-- The setters of an outline key and of its border key: where `StyleFromProps` runs
them, that both always return, and that they give the same object from the same
object, value and parent, except for "initial" with the suffix style; for the other
suffixes this is for a `SetIFace` that does not depend on the key. -/
theorem outline_border_setters (env : Env) (val : Iface) (ok bk : String)
    (hkeys : (ok, bk) ∈
      [("outline-style", "border-style"), ("outline-width", "border-width"),
        ("outline-radius", "border-radius"), ("outline-color", "border-color")]) :
    ∃ fO fB : StyleFunc BorderStyle,
      (∀ h s par vp, StyleFromProps.body env h s par ok val vp =
        match fO env (h s).Outline ok val (subPar h par (fun p => p.Outline)) vp with
        | some (obj, log) => some (h.set s { h s with Outline := obj }, log)
        | none => none) ∧
      (∀ h s par vp, StyleFromProps.body env h s par bk val vp =
        match fB env (h s).Border bk val (subPar h par (fun p => p.Border)) vp with
        | some (obj, log) => some (h.set s { h s with Border := obj }, log)
        | none => none) ∧
      ∀ (B : BorderStyle) (P : Par BorderStyle) (vp : Option Viewport2D),
        (fO env B ok val P vp).isSome = true ∧ (fB env B bk val P vp).isSome = true ∧
        ((ok ≠ "outline-style" →
            (∀ v x k k2, env.SetIFace v x k = env.SetIFace v x k2) ∧
            (∀ c x w k k2, env.ColorSetIFace c x w k = env.ColorSetIFace c x w k2)) →
          (val = .str "initial" → ok ≠ "outline-style") →
          (fO env B ok val P vp).map Prod.fst = (fB env B bk val P vp).map Prod.fst) := by
  simp only [List.mem_cons, Prod.mk.injEq, List.mem_nil_iff, or_false] at hkeys
  rcases hkeys with ⟨rfl, rfl⟩ | ⟨rfl, rfl⟩ | ⟨rfl, rfl⟩ | ⟨rfl, rfl⟩
  · refine ⟨_, _,
      fun h s par vp => StyleFromProps.body_outline env h s par "outline-style" val vp _
        (by decide) (by decide) rfl rfl rfl rfl rfl rfl,
      fun h s par vp => StyleFromProps.body_border env h s par "border-style" val vp _
        (by decide) (by decide) rfl rfl rfl rfl, ?_⟩
    intro B P vp
    generalize env.ToInt val = x
    refine ⟨?_, ?_, fun _ hinit => ?_⟩
    all_goals
      cases val with
      | str str =>
        by_cases hi : str = "inherit"
        · subst hi
          cases P <;> simp [StyleInhInit, IfaceIsNil]
        · by_cases hj : str = "initial"
          · subst hj
            simp_all [StyleInhInit]
          · simp [StyleInhInit_str_other _ P hi hj]
      | enum t n => cases t <;> cases x <;> simp [StyleInhInit]
      | _ => cases x <;> simp [StyleInhInit]
  · refine ⟨_, _,
      fun h s par vp => StyleFromProps.body_outline env h s par "outline-width" val vp _
        (by decide) (by decide) rfl rfl rfl rfl rfl rfl,
      fun h s par vp => StyleFromProps.body_border env h s par "border-width" val vp _
        (by decide) (by decide) rfl rfl rfl rfl, ?_⟩
    intro B P vp
    refine ⟨?_, ?_, fun hS _ => ?_⟩
    all_goals
      try (have e := fun v x => (hS (by decide)).1 v x "outline-width" "border-width")
      cases val with
      | str str =>
        by_cases hi : str = "inherit"
        · subst hi
          cases P <;> simp_all [StyleInhInit, IfaceIsNil]
        · by_cases hj : str = "initial"
          · subst hj
            simp_all [StyleInhInit]
          · simp_all [StyleInhInit_str_other _ P hi hj]
      | _ => simp_all [StyleInhInit]
  · refine ⟨_, _,
      fun h s par vp => StyleFromProps.body_outline env h s par "outline-radius" val vp _
        (by decide) (by decide) rfl rfl rfl rfl rfl rfl,
      fun h s par vp => StyleFromProps.body_border env h s par "border-radius" val vp _
        (by decide) (by decide) rfl rfl rfl rfl, ?_⟩
    intro B P vp
    refine ⟨?_, ?_, fun hS _ => ?_⟩
    all_goals
      try (have e := fun v x => (hS (by decide)).1 v x "outline-radius" "border-radius")
      cases val with
      | str str =>
        by_cases hi : str = "inherit"
        · subst hi
          cases P <;> simp_all [StyleInhInit, IfaceIsNil]
        · by_cases hj : str = "initial"
          · subst hj
            simp_all [StyleInhInit]
          · simp_all [StyleInhInit_str_other _ P hi hj]
      | _ => simp_all [StyleInhInit]
  · refine ⟨_, _,
      fun h s par vp => StyleFromProps.body_outline env h s par "outline-color" val vp _
        (by decide) (by decide) rfl rfl rfl rfl rfl rfl,
      fun h s par vp => StyleFromProps.body_border env h s par "border-color" val vp _
        (by decide) (by decide) rfl rfl rfl rfl, ?_⟩
    intro B P vp
    refine ⟨?_, ?_, fun hS _ => ?_⟩
    all_goals
      try (have e := fun c x w => (hS (by decide)).2 c x w "outline-color" "border-color")
      cases val with
      | str str =>
        by_cases hi : str = "inherit"
        · subst hi
          cases P <;> simp_all [StyleInhInit, IfaceIsNil]
        · by_cases hj : str = "initial"
          · subst hj
            simp_all [StyleInhInit]
          · simp_all [StyleInhInit_str_other _ P hi hj]
      | _ => simp_all [StyleInhInit]

/-- C14: the "outline-*" properties mirror the "border-*" properties on the `Outline`
field instead of the `Border` field.  For each suffix in style, width, radius, color,
from equal starting `Outline` and `Border` and equal parent `Outline` and `Border`
(both parents nil, or both not), applying "outline-<suffix>" gives the `Outline` that
applying "border-<suffix>" with the same value gives as `Border`; the one exception is
"initial" for the suffix style, which sets `Outline.Style` to `BorderNone` and
`Border.Style` to `BorderSolid`.  The outline setters leave `Border` alone and the
border setters leave `Outline` alone; both calls return.  For the suffix style this
holds outright; for width, radius and color the value goes to `SetIFace` together with
the key, and the equality is that of a `SetIFace` whose result does not depend on the
key it is given (the key names the property in its error report). -/
theorem StyleFromProps_outline_mirrors_border (env : Env) (h1 h2 : Heap) (s1 s2 : StylePtr)
    (par1 par2 : Option StylePtr) (vp : Option Viewport2D) (val : Iface) (ok bk : String)
    (hkeys : (ok, bk) ∈
      [("outline-style", "border-style"), ("outline-width", "border-width"),
        ("outline-radius", "border-radius"), ("outline-color", "border-color")])
    (hstart : (h1 s1).Outline = (h2 s2).Border)
    (hnil : par1 = none ↔ par2 = none)
    (hpar : ∀ p1 p2, par1 = some p1 → par2 = some p2 → (h1 p1).Outline = (h2 p2).Border) :
    ((∀ v x k k2, env.SetIFace v x k = env.SetIFace v x k2) →
      (∀ c x w k k2, env.ColorSetIFace c x w k = env.ColorSetIFace c x w k2) →
      (val = .str "initial" → ok ≠ "outline-style") →
      (Style.StyleFromProps env h1 s1 par1 [(ok, val)] vp).map (fun r => (r.1 s1).Outline) =
        (Style.StyleFromProps env h2 s2 par2 [(bk, val)] vp).map (fun r => (r.1 s2).Border)) ∧
    (ok = "outline-style" → val ≠ .str "initial" →
      (Style.StyleFromProps env h1 s1 par1 [(ok, val)] vp).map (fun r => (r.1 s1).Outline) =
        (Style.StyleFromProps env h2 s2 par2 [(bk, val)] vp).map (fun r => (r.1 s2).Border)) ∧
    (Style.StyleFromProps env h1 s1 par1 [(ok, val)] vp).map (fun r => (r.1 s1).Border) =
      some (h1 s1).Border ∧
    (Style.StyleFromProps env h2 s2 par2 [(bk, val)] vp).map (fun r => (r.1 s2).Outline) =
      some (h2 s2).Outline ∧
    (Style.StyleFromProps env h1 s1 par1 [("outline-style", .str "initial")] vp).map
        (fun r => (r.1 s1).Outline.Style) = some env.BorderNone ∧
    (Style.StyleFromProps env h2 s2 par2 [("border-style", .str "initial")] vp).map
        (fun r => (r.1 s2).Border.Style) = some env.BorderSolid := by
  have hP : subPar h1 par1 (fun p => p.Outline) = subPar h2 par2 (fun p => p.Border) := by
    cases par1 with
    | none =>
      have : par2 = none := hnil.mp rfl
      subst this
      rfl
    | some p1 =>
      cases par2 with
      | none => exact absurd (hnil.mpr rfl) (by simp)
      | some p2 => simp [subPar, hpar p1 p2 rfl rfl]
  obtain ⟨fO, fB, hbO, hbB, hf⟩ := outline_border_setters env val ok bk hkeys
  obtain ⟨sO, sB, heq⟩ := hf (h2 s2).Border (subPar h2 par2 (fun p => p.Border)) vp
  refine ⟨?_, ?_, ?_, ?_, ?_, ?_⟩
  · intro hSet hCol hinit
    have he := heq (fun _ => ⟨hSet, hCol⟩) hinit
    rw [StyleFromProps_single, StyleFromProps_single, hbO, hbB, hP, hstart]
    cases hA : fO env (h2 s2).Border ok val (subPar h2 par2 (fun p => p.Border)) vp with
    | none => simp [hA] at sO
    | some a =>
      cases hB : fB env (h2 s2).Border bk val (subPar h2 par2 (fun p => p.Border)) vp with
      | none => simp [hB] at sB
      | some b =>
        rw [hA, hB] at he
        simp only [Option.map_some', Option.some.injEq] at he
        simp [Heap.set, he]
  · intro hk hinit
    have he := heq (fun hne => absurd hk hne) (fun hv => absurd hv hinit)
    rw [StyleFromProps_single, StyleFromProps_single, hbO, hbB, hP, hstart]
    cases hA : fO env (h2 s2).Border ok val (subPar h2 par2 (fun p => p.Border)) vp with
    | none => simp [hA] at sO
    | some a =>
      cases hB : fB env (h2 s2).Border bk val (subPar h2 par2 (fun p => p.Border)) vp with
      | none => simp [hB] at sB
      | some b =>
        rw [hA, hB] at he
        simp only [Option.map_some', Option.some.injEq] at he
        simp [Heap.set, he]
  · rw [StyleFromProps_single, hbO, hP, hstart]
    cases hA : fO env (h2 s2).Border ok val (subPar h2 par2 (fun p => p.Border)) vp with
    | none => simp [hA] at sO
    | some a => simp [Heap.set]
  · rw [StyleFromProps_single, hbB]
    cases hB : fB env (h2 s2).Border bk val (subPar h2 par2 (fun p => p.Border)) vp with
    | none => simp [hB] at sB
    | some b => simp [Heap.set]
  · rw [StyleFromProps_single,
      StyleFromProps.body_outline env h1 s1 par1 "outline-style" _ vp _ (by decide) (by decide)
        rfl rfl rfl rfl rfl rfl]
    generalize subPar h1 par1 _ = P
    simp [StyleInhInit, Heap.set]
  · rw [StyleFromProps_single,
      StyleFromProps.body_border env h2 s2 par2 "border-style" _ vp _ (by decide) (by decide)
        rfl rfl rfl rfl]
    generalize subPar h2 par2 _ = P
    simp [StyleInhInit, Heap.set]

/-- C14 at the suffix width with the value 2pt, from `Style.zero`: both the outline
width and the border width become 2pt. -/
theorem StyleFromProps_outline_mirrors_border_witness :
    (Style.StyleFromProps Env.sample (fun _ => Style.zero) ⟨1⟩ none
        [("outline-width", .value ⟨2, .Pt, 0⟩)] none).map (fun r => (r.1 ⟨1⟩).Outline) =
      (Style.StyleFromProps Env.sample (fun _ => Style.zero) ⟨1⟩ none
        [("border-width", .value ⟨2, .Pt, 0⟩)] none).map (fun r => (r.1 ⟨1⟩).Border) :=
  (StyleFromProps_outline_mirrors_border Env.sample (fun _ => Style.zero)
    (fun _ => Style.zero) ⟨1⟩ ⟨1⟩ none none none (.value ⟨2, .Pt, 0⟩) "outline-width"
    "border-width" (by decide) rfl Iff.rfl (fun _ _ hp => by cases hp)).1
    (fun _ _ _ _ => rfl) (fun _ _ _ _ _ => rfl) (fun hv => by cases hv)

/-! ### Font size and text decoration -/

/-- C15: for "font-size" with a value other than "inherit" and "initial": a string
that is a key of `FontSizePoints` with entry `psz` makes `Size` exactly
`units.NewPt(psz)`, whatever `SetIFace` would do, so units parsing is not attempted; a
string that is not a named size is handed to `Size.SetIFace`; and a value that is not a
string always goes to `Size.SetIFace`.  Nothing is reported by the setter. -/
theorem StyleFromProps_font_size (env : Env) (h : Heap) (s : StylePtr)
    (par : Option StylePtr) (vp : Option Viewport2D) (val : Iface)
    (hval : val ≠ .str "inherit" ∧ val ≠ .str "initial") :
    (∀ str psz, val = .str str → env.FontSizePoints str = some psz →
      ∀ g : units.Value → Iface → String → units.Value,
        (Style.StyleFromProps { env with SetIFace := g } h s par [("font-size", val)] vp).map
          (fun r => ((r.1 s).Font.Size, r.2)) = some (env.NewPt psz, [])) ∧
    (∀ str, val = .str str → env.FontSizePoints str = none →
      (Style.StyleFromProps env h s par [("font-size", val)] vp).map
          (fun r => ((r.1 s).Font.Size, r.2)) =
        some (env.SetIFace (h s).Font.Size val "font-size", [])) ∧
    ((∀ str, val ≠ .str str) →
      (Style.StyleFromProps env h s par [("font-size", val)] vp).map
          (fun r => ((r.1 s).Font.Size, r.2)) =
        some (env.SetIFace (h s).Font.Size val "font-size", [])) := by
  obtain ⟨hi1, hi2⟩ := hval
  refine ⟨?_, ?_, ?_⟩
  · rintro str psz rfl hps g
    have h1 : str ≠ "inherit" := fun e => hi1 (by rw [e])
    have h2 : str ≠ "initial" := fun e => hi2 (by rw [e])
    rw [StyleFromProps_single,
      StyleFromProps.body_font _ h s par "font-size" _ vp _ (by decide) (by decide) rfl rfl]
    generalize subPar h par _ = P
    simp [StyleInhInit_str_other str P h1 h2, hps, Heap.set]
  · rintro str rfl hps
    have h1 : str ≠ "inherit" := fun e => hi1 (by rw [e])
    have h2 : str ≠ "initial" := fun e => hi2 (by rw [e])
    rw [StyleFromProps_single,
      StyleFromProps.body_font _ h s par "font-size" _ vp _ (by decide) (by decide) rfl rfl]
    generalize subPar h par _ = P
    simp [StyleInhInit_str_other str P h1 h2, hps, Heap.set]
  · intro hns
    rw [StyleFromProps_single,
      StyleFromProps.body_font _ h s par "font-size" _ vp _ (by decide) (by decide) rfl rfl]
    generalize subPar h par _ = P
    cases val <;> simp_all [StyleInhInit, Heap.set]

/-- C15 at the named size "medium", 12 points in the sample table. -/
theorem StyleFromProps_font_size_witness :
    (Style.StyleFromProps Env.sample (fun _ => Style.zero) ⟨1⟩ none
        [("font-size", .str "medium")] none).map (fun r => ((r.1 ⟨1⟩).Font.Size, r.2)) =
      some (⟨12, .Pt, 0⟩, []) :=
  (StyleFromProps_font_size Env.sample (fun _ => Style.zero) ⟨1⟩ none none (.str "medium")
    ⟨by decide, by decide⟩).1 "medium" 12 rfl rfl Env.sample.SetIFace

/-- C16: for "text-decoration" the string "none" sets `Deco` to `DecoNone` for every
previous value of `Deco` and every parent, whatever the enum registry would do; every
other string, except "inherit" with a parent and "initial", is passed to the
enum-from-string setter, whose result becomes `Deco`.  "inherit" with a parent copies
the parent's `Deco`, and "initial" sets `DecoNone`. -/
theorem StyleFromProps_text_decoration (env : Env) (h : Heap) (s : StylePtr)
    (par : Option StylePtr) (vp : Option Viewport2D) (str : String) :
    (∀ g : EnumType → Int → String → Int,
      (Style.StyleFromProps { env with SetAnyEnumIfaceFromString := g } h s par
          [("text-decoration", .str "none")] vp).map (fun r => ((r.1 s).Font.Deco, r.2)) =
        some (env.DecoNone, [])) ∧
    (str ≠ "none" → str ≠ "initial" → (str = "inherit" → par = none) →
      (Style.StyleFromProps env h s par [("text-decoration", .str str)] vp).map
          (fun r => ((r.1 s).Font.Deco, r.2)) =
        some (env.SetAnyEnumIfaceFromString .TextDecorations (h s).Font.Deco str, [])) ∧
    (∀ pp, par = some pp →
      (Style.StyleFromProps env h s par [("text-decoration", .str "inherit")] vp).map
          (fun r => ((r.1 s).Font.Deco, r.2)) = some ((h pp).Font.Deco, [])) ∧
    (Style.StyleFromProps env h s par [("text-decoration", .str "initial")] vp).map
        (fun r => ((r.1 s).Font.Deco, r.2)) = some (env.DecoNone, []) := by
  refine ⟨?_, ?_, ?_, ?_⟩
  · intro g
    rw [StyleFromProps_single,
      StyleFromProps.body_font _ h s par "text-decoration" _ vp _ (by decide) (by decide) rfl
        rfl]
    generalize subPar h par _ = P
    simp [StyleInhInit, Heap.set]
  · intro hn hi hp
    rw [StyleFromProps_single,
      StyleFromProps.body_font _ h s par "text-decoration" _ vp _ (by decide) (by decide) rfl
        rfl]
    by_cases hinh : str = "inherit"
    · subst hinh
      rw [hp rfl]
      simp [StyleInhInit, IfaceIsNil, subPar, Heap.set]
    · generalize subPar h par _ = P
      simp [StyleInhInit_str_other str P hinh hi, hn, Heap.set]
  · rintro pp rfl
    rw [StyleFromProps_single,
      StyleFromProps.body_font _ h s _ "text-decoration" _ vp _ (by decide) (by decide) rfl
        rfl]
    by_cases hps : pp = s
    · subst hps; simp [StyleInhInit, IfaceIsNil, subPar, Heap.set]
    · simp [StyleInhInit, IfaceIsNil, subPar, Heap.set]
  · rw [StyleFromProps_single,
      StyleFromProps.body_font _ h s par "text-decoration" _ vp _ (by decide) (by decide) rfl
        rfl]
    generalize subPar h par _ = P
    simp [StyleInhInit, Heap.set]

/-- C16 at the string "underline", which goes to the enum-from-string setter (the
sample one keeps the field), and at "inherit" without a parent, which does too. -/
theorem StyleFromProps_text_decoration_witness :
    (Style.StyleFromProps Env.sample (fun _ => Style.zero) ⟨1⟩ none
        [("text-decoration", .str "underline")] none).map
        (fun r => ((r.1 ⟨1⟩).Font.Deco, r.2)) = some (0, []) ∧
    (Style.StyleFromProps Env.sample (fun _ => Style.zero) ⟨1⟩ none
        [("text-decoration", .str "inherit")] none).map
        (fun r => ((r.1 ⟨1⟩).Font.Deco, r.2)) = some (0, []) :=
  ⟨(StyleFromProps_text_decoration Env.sample (fun _ => Style.zero) ⟨1⟩ none none
      "underline").2.1 (by decide) (by decide) (fun hs => absurd hs (by decide)),
    (StyleFromProps_text_decoration Env.sample (fun _ => Style.zero) ⟨1⟩ none none
      "inherit").2.1 (by decide) (by decide) (fun _ => rfl)⟩

end gi

namespace giv

open gi

/-! ### `MapViewInline` -/

/-- A key of the map that is equal to itself is found by `MapIndex`. -/
theorem MapIndex_isSome_of_mem_keys (env : Env) (mp : GoMap) (key : Iface)
    (h : key ∈ mp.map Prod.fst) (hself : env.KeyEq key key = true) :
    ∃ val, MapIndex env mp key = some val := by
  unfold MapIndex
  cases hf : mp.find? (fun e => env.KeyEq e.1 key) with
  | some e => exact ⟨e.2, rfl⟩
  | none =>
    exfalso
    obtain ⟨e, he, hek⟩ := List.mem_map.mp h
    have hn := List.find?_eq_none.mp hf e he
    rw [hek] at hn
    exact hn hself

/-- What `MapIndex` finds is the value of an entry whose key is equal to the key asked
for. -/
theorem MapIndex_mem (env : Env) (mp : GoMap) (key val : Iface)
    (h : MapIndex env mp key = some val) :
    ∃ k, (k, val) ∈ mp ∧ env.KeyEq k key = true := by
  unfold MapIndex at h
  cases hf : mp.find? (fun e => env.KeyEq e.1 key) with
  | none => simp [hf] at h
  | some e =>
    simp only [hf, Option.some.injEq] at h
    obtain ⟨k, v⟩ := e
    simp only at h
    subst h
    exact ⟨k, List.mem_of_find?_eq_some hf, by simpa using List.find?_some hf⟩

/-- In a map whose entries have distinct keys, what `MapIndex` finds for a key of the
map is the value of that key's own entry. -/
theorem MapIndex_entry (env : Env) (mp : GoMap) (key val : Iface)
    (hd : GoMap.Distinct env mp) (hk : key ∈ mp.map Prod.fst)
    (h : MapIndex env mp key = some val) : (key, val) ∈ mp := by
  obtain ⟨k, hmem, heq⟩ := MapIndex_mem env mp key val h
  obtain ⟨e, he, hek⟩ := List.mem_map.mp hk
  have hke : env.KeyEq (k, val).1 e.1 = true := by rw [hek]; exact heq
  have := hd (k, val) hmem e he hke
  rw [← this] at hek
  simp only at hek
  rw [← hek]
  exact hmem

/-- Unfolding `keptEntries` at a key that gets both views. -/
theorem keptEntries_cons_some (env : Env) (mp : GoMap) (key : Iface) (rest : List Iface)
    (kv vv : ValueView) (val : Iface) (hk : env.ToValueView key = some kv)
    (hl : MapIndex env mp key = some val) (hv : env.ToValueView val = some vv) :
    keptEntries env mp (key :: rest) = (key, val, kv, vv) :: keptEntries env mp rest := by
  simp [keptEntries, List.filterMap_cons, hk, hl, hv]

/-- Unfolding `keptEntries` at a key without a key view. -/
theorem keptEntries_cons_nokey (env : Env) (mp : GoMap) (key : Iface) (rest : List Iface)
    (hk : env.ToValueView key = none) :
    keptEntries env mp (key :: rest) = keptEntries env mp rest := by
  simp [keptEntries, List.filterMap_cons, hk]

/-- Unfolding `keptEntries` at a key whose value has no view. -/
theorem keptEntries_cons_noval (env : Env) (mp : GoMap) (key : Iface) (rest : List Iface)
    (val : Iface) (hl : MapIndex env mp key = some val) (hv : env.ToValueView val = none) :
    keptEntries env mp (key :: rest) = keptEntries env mp rest := by
  cases hk : env.ToValueView key <;> simp [keptEntries, List.filterMap_cons, hk, hl, hv]

/-- Unfolding `allFound` at the first key. -/
theorem allFound_cons (env : Env) (mp : GoMap) (key : Iface) (rest : List Iface) :
    allFound env mp (key :: rest) =
      (((env.ToValueView key).isNone || (MapIndex env mp key).isSome) &&
        allFound env mp rest) := by
  simp [allFound]

/-- The keys at which the loop does not panic: every key with a view is found. -/
theorem allFound_iff (env : Env) (mp : GoMap) (keys : List Iface) :
    allFound env mp keys = true ↔
      ∀ key ∈ keys, env.ToValueView key ≠ none → MapIndex env mp key ≠ none := by
  simp only [allFound, List.all_eq_true, Bool.or_eq_true, Option.isNone_iff_eq_none,
    Option.isSome_iff_ne_none]
  constructor
  · intro h key hk hv
    rcases h key hk with h1 | h1
    · exact absurd h1 hv
    · exact h1
  · intro h key hk
    by_cases hv : env.ToValueView key = none
    · exact Or.inl hv
    · exact Or.inr (h key hk hv)

/-- The loop panics when `MapIndex` misses a key that has a view; otherwise it appends,
for the kept entries in order, their widgets to the config and their views to `Keys`
and `Values`. -/
theorem ConfigParts.loop_eq (env : Env) (mp : GoMap) (tmpSave : Option ValueView)
    (keys : List Iface) (st : ConfigState) :
    ConfigParts.loop env mp tmpSave keys st =
      if allFound env mp keys = true then
        some
          { Config := st.Config ++ configOf env mp tmpSave (keptEntries env mp keys)
            Keys := st.Keys ++ (keptEntries env mp keys).map (keyViewOf env mp tmpSave)
            Values := st.Values ++ (keptEntries env mp keys).map (valueViewOf env mp tmpSave) }
      else none := by
  induction keys generalizing st with
  | nil => simp [ConfigParts.loop, keptEntries, configOf, allFound]
  | cons key rest ih =>
    rw [allFound_cons]
    cases hk : env.ToValueView key with
    | none =>
      rw [keptEntries_cons_nokey env mp key rest hk]
      simp only [ConfigParts.loop, hk]
      rw [ih st]
      simp
    | some kv =>
      cases hl : MapIndex env mp key with
      | none => simp [ConfigParts.loop, hk, hl]
      | some val =>
        cases hv : env.ToValueView val with
        | none =>
          rw [keptEntries_cons_noval env mp key rest val hl hv]
          simp only [ConfigParts.loop, hk, hl, hv]
          rw [ih st]
          simp
        | some vv =>
          rw [keptEntries_cons_some env mp key rest kv vv val hk hl hv]
          simp only [ConfigParts.loop, hk, hl, hv]
          rw [ih _]
          simp [configOf, keyViewOf, valueViewOf]

/-- The config of `n` kept entries has `2 n` widgets. -/
theorem configOf_length (env : Env) (mp : GoMap) (tmpSave : Option ValueView)
    (l : List (Iface × Iface × ValueView × ValueView)) :
    (configOf env mp tmpSave l).length = 2 * l.length := by
  induction l with
  | nil => rfl
  | cons e es ih => simp [configOf, ih]; omega

/-- The widgets of the `i`-th kept entry are at positions `2 i` and `2 i + 1`. -/
theorem configOf_get (env : Env) (mp : GoMap) (tmpSave : Option ValueView)
    (l : List (Iface × Iface × ValueView × ValueView)) (i : Nat)
    (e : Iface × Iface × ValueView × ValueView) (tail : List TypeAndName)
    (he : l[i]? = some e) :
    (configOf env mp tmpSave l ++ tail)[2 * i]? =
        some ⟨env.WidgetType (keyViewOf env mp tmpSave e), "key-" ++ env.ToString e.1⟩ ∧
      (configOf env mp tmpSave l ++ tail)[2 * i + 1]? =
        some ⟨env.WidgetType (valueViewOf env mp tmpSave e), "value-" ++ env.ToString e.1⟩ := by
  induction l generalizing i with
  | nil => simp at he
  | cons a as ih =>
    cases i with
    | zero =>
      simp only [List.getElem?_cons_zero, Option.some.injEq] at he
      subst he
      simp [configOf]
    | succ j =>
      simp only [List.getElem?_cons_succ] at he
      have := ih j he
      have h2 : 2 * (j + 1) = (2 * j + 1) + 1 := by omega
      rw [h2]
      simpa [configOf] using this

/-- A kept entry is a key of `keys` with what `MapIndex` finds for it, both with a
view. -/
theorem mem_keptEntries (env : Env) (mp : GoMap) (keys : List Iface)
    (e : Iface × Iface × ValueView × ValueView) (he : e ∈ keptEntries env mp keys) :
    e.1 ∈ keys ∧ MapIndex env mp e.1 = some e.2.1 ∧ env.ToValueView e.1 = some e.2.2.1 ∧
      env.ToValueView e.2.1 = some e.2.2.2 := by
  simp only [keptEntries, List.mem_filterMap] at he
  obtain ⟨key, hkey, hm⟩ := he
  cases hk : env.ToValueView key with
  | none => simp [hk] at hm
  | some kv =>
    cases hl : MapIndex env mp key with
    | none => simp [hk, hl] at hm
    | some val =>
      cases hv : env.ToValueView val with
      | none => simp [hk, hl, hv] at hm
      | some vv =>
        simp only [hk, hl, hv, Option.some.injEq] at hm
        subst hm
        exact ⟨hkey, hl, hk, hv⟩

/-- No more entries are kept than there are keys. -/
theorem keptEntries_length_le (env : Env) (mp : GoMap) (keys : List Iface) :
    (keptEntries env mp keys).length ≤ keys.length := by
  unfold keptEntries
  exact List.length_filterMap_le _ _

/-- Every key is kept when every key has a view and is found, and every value found
has a view. -/
theorem keptEntries_length_eq (env : Env) (mp : GoMap) (keys : List Iface)
    (hfound : ∀ key ∈ keys, env.ToValueView key ≠ none → MapIndex env mp key ≠ none)
    (hkview : ∀ key ∈ keys, env.ToValueView key ≠ none)
    (hvview : ∀ key val, MapIndex env mp key = some val → env.ToValueView val ≠ none) :
    (keptEntries env mp keys).length = keys.length := by
  induction keys with
  | nil => rfl
  | cons key rest ih =>
    have h1 := hkview key (List.mem_cons_self _ _)
    obtain ⟨val, hl⟩ := Option.ne_none_iff_exists'.mp (hfound key (List.mem_cons_self _ _) h1)
    have h2 := hvview key val hl
    obtain ⟨kv, hk⟩ := Option.ne_none_iff_exists'.mp h1
    obtain ⟨vv, hv⟩ := Option.ne_none_iff_exists'.mp h2
    rw [keptEntries_cons_some env mp key rest kv vv val hk hl hv]
    simp [ih (fun k hk => hfound k (List.mem_cons_of_mem _ hk))
      (fun k hk => hkview k (List.mem_cons_of_mem _ hk))]

/-- Lists with equal images under a map that is injective across them are equal. -/
theorem eq_of_map_eq_of_injOn {α β : Type} (f : α → β) (l1 l2 : List α)
    (hmap : l1.map f = l2.map f)
    (hinj : ∀ a ∈ l1, ∀ b ∈ l2, f a = f b → a = b) : l1 = l2 := by
  induction l1 generalizing l2 with
  | nil =>
    cases l2 with
    | nil => rfl
    | cons b bs => simp at hmap
  | cons a as ih =>
    cases l2 with
    | nil => simp at hmap
    | cons b bs =>
      simp only [List.map_cons, List.cons.injEq] at hmap
      have hab : a = b := hinj a (List.mem_cons_self _ _) b (List.mem_cons_self _ _) hmap.1
      have htl : as = bs :=
        ih bs hmap.2 (fun x hx y hy =>
          hinj x (List.mem_cons_of_mem _ hx) y (List.mem_cons_of_mem _ hy))
      rw [hab, htl]

/-- Two orders of the keys of one map that are both sorted by `ToStringValue` are the
same order when distinct keys have distinct strings. -/
theorem SortedKeysOf_unique (env : Env) (mp : GoMap) (keys keys' : List Iface)
    (h : SortedKeysOf env mp keys) (h' : SortedKeysOf env mp keys')
    (hinj : ∀ a ∈ keys, ∀ b ∈ keys, env.ToStringValue a = env.ToStringValue b → a = b) :
    keys = keys' := by
  have hperm : keys.Perm keys' := h.1.trans h'.1.symm
  have hs : (keys.map env.ToStringValue).Sorted (· ≤ ·) := by
    simpa [List.Sorted, List.pairwise_map] using h.2
  have hs' : (keys'.map env.ToStringValue).Sorted (· ≤ ·) := by
    simpa [List.Sorted, List.pairwise_map] using h'.2
  have hm : keys.map env.ToStringValue = keys'.map env.ToStringValue :=
    List.eq_of_perm_of_sorted (hperm.map _) hs hs'
  exact eq_of_map_eq_of_injOn env.ToStringValue keys keys' hm
    (fun a ha b hb => hinj a ha b (hperm.mem_iff.mpr hb))

/-- The call of `ConfigParts` on a map, in terms of the kept entries: a panic when
`MapIndex` misses a key that has a view. -/
theorem MapViewInline.ConfigParts_eq (env : Env) (mv : MapViewInline) (mp : GoMap)
    (keys : List Iface) (hmap : mv.Map = some mp) :
    mv.ConfigParts env keys =
      if allFound env mp keys = true then
        some
          { PartsLay := env.LayoutHoriz
            Config := configOf env mp mv.TmpSave (keptEntries env mp keys) ++
              [⟨env.KiT_Action, "edit-action"⟩]
            Map := some mp
            Keys := (keptEntries env mp keys).map (keyViewOf env mp mv.TmpSave)
            Values := (keptEntries env mp keys).map (valueViewOf env mp mv.TmpSave)
            TmpSave := mv.TmpSave }
      else none := by
  unfold MapViewInline.ConfigParts
  simp only [hmap]
  rw [ConfigParts.loop_eq env mp mv.TmpSave keys _]
  by_cases hf : allFound env mp keys = true <;> simp [hf]

/-- Keys of the map that are equal to themselves wherever they have a view are all
found. -/
theorem allFound_of_self_eq (env : Env) (mp : GoMap) (keys : List Iface)
    (hkeys : keys.Perm (mp.map Prod.fst))
    (hself : ∀ key ∈ keys, env.ToValueView key ≠ none → env.KeyEq key key = true) :
    allFound env mp keys = true := by
  rw [allFound_iff]
  intro key hk hv
  obtain ⟨val, hval⟩ :=
    MapIndex_isSome_of_mem_keys env mp key (hkeys.mem_iff.mp hk) (hself key hk hv)
  rw [hval]
  exact Option.some_ne_none _

/-- C9: `ConfigParts` on a non-nil map returns when every key that gets a view is equal
to itself (no such key holds a NaN), and panics when `MapIndex` misses a key that gets
a view.  After it, `Keys` and `Values` have the same length `n`, at most the number of
map entries and equal to it when every key and every value found gets a view; for
every `i < n`, `Keys[i]` and `Values[i]` are the views of a key and of the value the
map holds for it (the `i`-th kept entry in the sorted order, an entry of the map when
the map's keys are distinct), the value view having been given that key and that key
view; and the config handed to `Parts` has exactly `2 n + 1` entries: the key widget
`key-<k_i>` at `2 i`, the value widget `value-<k_i>` at `2 i + 1`, and the `gi.Action`
named `edit-action` last. -/
theorem ConfigParts_spec (env : Env) (mv : MapViewInline) (mp : GoMap) (keys : List Iface)
    (hmap : mv.Map = some mp) (hkeys : keys.Perm (mp.map Prod.fst)) :
    ((∀ key ∈ keys, env.ToValueView key ≠ none → env.KeyEq key key = true) →
      ∃ r, mv.ConfigParts env keys = some r) ∧
    ((∃ key ∈ keys, env.ToValueView key ≠ none ∧ MapIndex env mp key = none) →
      mv.ConfigParts env keys = none) ∧
    ∀ r, mv.ConfigParts env keys = some r →
      r.Map = some mp ∧ r.TmpSave = mv.TmpSave ∧
      r.Keys.length = r.Values.length ∧
      r.Keys.length ≤ mp.length ∧
      ((∀ key ∈ keys, env.ToValueView key ≠ none) →
        (∀ key val, MapIndex env mp key = some val → env.ToValueView val ≠ none) →
        r.Keys.length = mp.length) ∧
      r.Config.length = 2 * r.Keys.length + 1 ∧
      r.Config[2 * r.Keys.length]? = some ⟨env.KiT_Action, "edit-action"⟩ ∧
      ∀ i, i < r.Keys.length → ∃ key val kv vv,
        (keptEntries env mp keys)[i]? = some (key, val, kv, vv) ∧
        key ∈ keys ∧ MapIndex env mp key = some val ∧
        (GoMap.Distinct env mp → (key, val) ∈ mp) ∧
        env.ToValueView key = some kv ∧ env.ToValueView val = some vv ∧
        r.Keys[i]? = some (env.SetMapKey kv key mp mv.TmpSave) ∧
        r.Values[i]? =
          some (env.SetMapValue vv val mp key (env.SetMapKey kv key mp mv.TmpSave) mv.TmpSave) ∧
        r.Config[2 * i]? =
          some ⟨env.WidgetType (env.SetMapKey kv key mp mv.TmpSave),
            "key-" ++ env.ToString key⟩ ∧
        r.Config[2 * i + 1]? =
          some ⟨env.WidgetType
              (env.SetMapValue vv val mp key (env.SetMapKey kv key mp mv.TmpSave) mv.TmpSave),
            "value-" ++ env.ToString key⟩ := by
  have hlen : keys.length = mp.length := by simpa using hkeys.length_eq
  have heq := MapViewInline.ConfigParts_eq env mv mp keys hmap
  refine ⟨?_, ?_, ?_⟩
  · intro hself
    rw [heq, if_pos (allFound_of_self_eq env mp keys hkeys hself)]
    exact ⟨_, rfl⟩
  · rintro ⟨key, hk, hv, hnone⟩
    have hf : ¬ allFound env mp keys = true := by
      rw [allFound_iff]
      intro h
      exact h key hk hv hnone
    rw [heq, if_neg hf]
  · intro r hr
    by_cases hf : allFound env mp keys = true
    · rw [heq, if_pos hf, Option.some.injEq] at hr
      subst hr
      refine ⟨rfl, rfl, ?_, ?_, ?_, ?_, ?_, ?_⟩
      · simp
      · simpa [hlen] using keptEntries_length_le env mp keys
      · intro hkview hvview
        simpa [hlen] using
          keptEntries_length_eq env mp keys ((allFound_iff env mp keys).mp hf) hkview hvview
      · simp [configOf_length]
      · have h := configOf_length env mp mv.TmpSave (keptEntries env mp keys)
        simp only [List.length_map]
        rw [← h, List.getElem?_append_right (le_refl _)]
        simp
      · intro i hi
        simp only [List.length_map] at hi
        obtain ⟨e, he⟩ : ∃ e, (keptEntries env mp keys)[i]? = some e :=
          ⟨_, List.getElem?_eq_getElem hi⟩
        obtain ⟨key, val, kv, vv⟩ := e
        obtain ⟨h1, h2, h3, h4⟩ := mem_keptEntries env mp keys _ (List.getElem?_mem he)
        obtain ⟨c1, c2⟩ := configOf_get env mp mv.TmpSave _ i _
          [⟨env.KiT_Action, "edit-action"⟩] he
        refine ⟨key, val, kv, vv, he, h1, h2,
          fun hd => MapIndex_entry env mp key val hd (hkeys.mem_iff.mp h1) h2, h3, h4, ?_, ?_,
          c1, c2⟩
        · rw [List.getElem?_map, he]
          rfl
        · rw [List.getElem?_map, he]
          rfl
    · rw [heq, if_neg hf] at hr
      cases hr

/-- C9 at a map with the entries `1: 10`, `2: "b"` (no view for the value) and `3: 30`. -/
theorem ConfigParts_spec_witness :
    ∃ r, MapViewInline.ConfigParts Env.sample
        ⟨0, [], some [(.int 3, .int 30), (.int 1, .int 10), (.int 2, .str "b")], [], [], none⟩
        [.int 1, .int 2, .int 3] = some r ∧
      r.Keys.length = r.Values.length ∧ r.Keys.length ≤ 3 ∧
      r.Config.length = 2 * r.Keys.length + 1 := by
  obtain ⟨hret, -, hpost⟩ := ConfigParts_spec Env.sample
    ⟨0, [], some [(.int 3, .int 30), (.int 1, .int 10), (.int 2, .str "b")], [], [], none⟩
    [(.int 3, .int 30), (.int 1, .int 10), (.int 2, .str "b")]
    [.int 1, .int 2, .int 3] rfl (by decide)
  obtain ⟨r, hr⟩ := hret (by decide)
  obtain ⟨-, -, h2, h3, -, h4, -⟩ := hpost r hr
  exact ⟨r, hr, h2, h3, h4⟩

/-- A map with a NaN key, `NaN: 1`: `MapKeys` lists the key, `MapIndex` does not find
it, and `ConfigParts` panics at `val.Interface()`; with the key `1.0` in its place it
returns with one key view. -/
theorem ConfigParts_NaN_key :
    MapViewInline.ConfigParts Env.sample
        ⟨0, [], some [(.float ⟨0x7FC00000⟩, .int 1)], [], [], none⟩ [.float ⟨0x7FC00000⟩] =
        none ∧
      (MapViewInline.ConfigParts Env.sample
        ⟨0, [], some [(.float 1, .int 1)], [], [], none⟩ [.float 1]).map
          (fun m => m.Keys.length) = some 1 := by
  decide

/-- Go `SetMap` on a map, in terms of the kept entries. -/
theorem MapViewInline.SetMap_eq (env : Env) (mv : MapViewInline) (mp : GoMap)
    (tmpSave : Option ValueView) (keys : List Iface) (hkeys : keys.Perm (mp.map Prod.fst))
    (hself : ∀ key ∈ keys, env.ToValueView key ≠ none → env.KeyEq key key = true) :
    mv.SetMap env (some mp) tmpSave keys =
      some
        { PartsLay := env.LayoutHoriz
          Config := configOf env mp tmpSave (keptEntries env mp keys) ++
            [⟨env.KiT_Action, "edit-action"⟩]
          Map := some mp
          Keys := (keptEntries env mp keys).map (keyViewOf env mp tmpSave)
          Values := (keptEntries env mp keys).map (valueViewOf env mp tmpSave)
          TmpSave := tmpSave } := by
  unfold MapViewInline.SetMap MapViewInline.UpdateFromMap
  rw [MapViewInline.ConfigParts_eq env _ mp keys rfl,
    if_pos (allFound_of_self_eq env mp keys hkeys hself)]

/-- The number of kept entries does not depend on the order of the keys. -/
theorem keptEntries_length_perm (env : Env) (mp : GoMap) (keys keys' : List Iface)
    (h : keys.Perm keys') :
    (keptEntries env mp keys).length = (keptEntries env mp keys').length := by
  unfold keptEntries
  exact (h.filterMap _).length_eq

/-- On a map `mp` that is not nil and has no NaN key, `SetMap(mp, tmpSave)` returns
with `mv.Map` being `mp` and `mv.TmpSave` being `tmpSave`, and `Keys`, `Values` and the
config are what `ConfigParts` builds from `mp`, `tmpSave` and the sorted keys alone:
they do not depend on the view before the call.  So a second `SetMap` with the same map
gives `Keys` and `Values` of the same length, and in the same order whenever the keys
come sorted in the same order, which they do when distinct keys have distinct
strings. -/
theorem SetMap_spec (env : Env) (mv : MapViewInline) (mp : GoMap)
    (tmpSave : Option ValueView) (keys : List Iface) (hkeys : SortedKeysOf env mp keys)
    (hself : ∀ key ∈ keys, env.ToValueView key ≠ none → env.KeyEq key key = true) :
    ∃ r, mv.SetMap env (some mp) tmpSave keys = some r ∧
      r.Map = some mp ∧ r.TmpSave = tmpSave ∧
      r.Keys = (keptEntries env mp keys).map (keyViewOf env mp tmpSave) ∧
      r.Values = (keptEntries env mp keys).map (valueViewOf env mp tmpSave) ∧
      (∃ c, ({ mv with Map := some mp, TmpSave := tmpSave } : MapViewInline).ConfigParts env
          keys = some c ∧ r = c) ∧
      ∀ (mv' : MapViewInline) (keys' : List Iface), SortedKeysOf env mp keys' →
        ∃ r', mv'.SetMap env (some mp) tmpSave keys' = some r' ∧
          r'.Keys.length = r.Keys.length ∧ r'.Values.length = r.Values.length ∧
          (keys' = keys → r' = r) ∧
          ((∀ a ∈ keys, ∀ b ∈ keys, env.ToStringValue a = env.ToStringValue b → a = b) →
            r' = r) := by
  have hf := allFound_of_self_eq env mp keys hkeys.1 hself
  refine ⟨_, MapViewInline.SetMap_eq env mv mp tmpSave keys hkeys.1 hself, rfl, rfl, rfl, rfl,
    ⟨_, by rw [MapViewInline.ConfigParts_eq env _ mp keys rfl, if_pos hf], rfl⟩, ?_⟩
  intro mv' keys' hkeys'
  have hperm : keys'.Perm keys := hkeys'.1.trans hkeys.1.symm
  have hself' : ∀ key ∈ keys', env.ToValueView key ≠ none → env.KeyEq key key = true :=
    fun key hk => hself key (hperm.mem_iff.mp hk)
  refine ⟨_, MapViewInline.SetMap_eq env mv' mp tmpSave keys' hkeys'.1 hself', ?_, ?_, ?_, ?_⟩
  · simp [keptEntries_length_perm env mp keys' keys hperm]
  · simp [keptEntries_length_perm env mp keys' keys hperm]
  · rintro rfl
    rfl
  · intro hinj
    rw [SortedKeysOf_unique env mp keys keys' hkeys hkeys' hinj]

/-- The keys `1`, `3` are a sorted order of the keys of the map `3: 30, 1: 10`. -/
theorem sample_SortedKeysOf :
    SortedKeysOf Env.sample [(.int 3, .int 30), (.int 1, .int 10)] [.int 1, .int 3] := by
  refine ⟨by decide, ?_⟩
  simp only [List.pairwise_cons, List.mem_cons, List.mem_singleton, forall_eq_or_imp, forall_eq,
    List.not_mem_nil, false_implies, implies_true, List.Pairwise.nil, and_true]
  show FormatInt10 1 ≤ FormatInt10 3
  rw [String.le_iff_toList_le]
  decide

/-- The view after one `SetMap` with the map `1: 10`, `3: 30` and the view after a
second one started from the first are the same view. -/
theorem SetMap_spec_sample :
    ∃ r, MapViewInline.SetMap Env.sample ⟨0, [], none, [⟨5⟩], [⟨6⟩], none⟩
        (some [(.int 3, .int 30), (.int 1, .int 10)]) none [.int 1, .int 3] = some r ∧
      r.Keys = [⟨101⟩, ⟨103⟩] ∧
      ∃ r', MapViewInline.SetMap Env.sample r
        (some [(.int 3, .int 30), (.int 1, .int 10)]) none [.int 1, .int 3] = some r' ∧
        r' = r := by
  obtain ⟨r, h1, -, -, h2, -, -, h3⟩ := SetMap_spec Env.sample
    ⟨0, [], none, [⟨5⟩], [⟨6⟩], none⟩ [(.int 3, .int 30), (.int 1, .int 10)] none
    [.int 1, .int 3] sample_SortedKeysOf (by decide)
  obtain ⟨r', h4, -, -, h5, -⟩ := h3 r [.int 1, .int 3] sample_SortedKeysOf
  exact ⟨r, h1, by rw [h2]; decide, r', h4, h5 rfl⟩

/-- C10: `SetMap` fails to rebuild the view for a nil map.  A view is made to show the
map `1: 10`, which gives it one key view and one value view; then `SetMap(nil, nil)`
is called on it.  `ConfigParts` returns at its nil guard before it empties `Keys` and
`Values`, so the view, whose `Map` is now nil, still holds the key view and the value
view of the map `1: 10`; the same call on a fresh view leaves `Keys` and `Values`
empty.  So `Keys` and `Values` after `SetMap` depend on what they held before. -/
theorem SetMap_nil_keeps_Keys :
    ∃ r, MapViewInline.SetMap Env.sample ⟨0, [], none, [], [], none⟩
        (some [(.int 1, .int 10)]) none [.int 1] = some r ∧
      (MapViewInline.SetMap Env.sample r none none []).map (fun m => (m.Map, m.Keys, m.Values)) =
        some (none, [⟨101⟩], [⟨101010⟩]) ∧
      (MapViewInline.SetMap Env.sample ⟨0, [], none, [], [], none⟩ none none []).map
          (fun m => (m.Map, m.Keys, m.Values)) =
        some (none, [], []) := by
  refine ⟨_, rfl, ?_, ?_⟩ <;> decide

end giv

namespace windriver

/-! ### `Main` -/

/-- Running a callback that records one call `n` times records `n` calls. -/
theorem iterate_callF (a : App) (n : Nat) (t : Trace) :
    Nat.iterate (fun t => t ++ [Event.call a]) n t = t ++ List.replicate n (Event.call a) := by
  induction n generalizing t with
  | zero => simp
  | succ k ih =>
    rw [Function.iterate_succ_apply, ih, List.replicate_succ]
    simp

/-- The trace of `Main`, written out. -/
theorem Main_eq (run : Win32Run) (t0 : Trace) :
    Main run callF t0 =
      t0 ++ [Event.setTheApp App.theApp, Event.initScreens, Event.win32Main] ++
        List.replicate run.callbacks (Event.call App.theApp) ++ [Event.win32Return run.err] ++
        (match run.err with
          | none => []
          | some err => [Event.call (App.Stub err)]) := by
  obtain ⟨n, err⟩ := run
  cases err with
  | none => simp [Main, win32.Main, callF, iterate_callF]
  | some e => simp [Main, win32.Main, callF, iterate_callF]

/-- C11: `Main` first sets `oswin.TheApp` to `theApp` and initialises the screens,
then runs `win32.Main` with a callback, each run of which is one call `f(theApp)`; when
`win32.Main` returns a nil error `Main` does not call `f` again, and when it returns a
non-nil error `err`, `Main` calls `f` exactly one further time, with
`errapp.Stub(err)`, and that is the last thing it does. -/
theorem Main_trace (run : Win32Run) (t0 : Trace) :
    ∃ during after,
      Main run callF t0 =
        t0 ++ [Event.setTheApp App.theApp, Event.initScreens, Event.win32Main] ++ during ++
          [Event.win32Return run.err] ++ after ∧
      during = List.replicate run.callbacks (Event.call App.theApp) ∧
      (run.err = none → after = []) ∧
      (∀ err, run.err = some err → after = [Event.call (App.Stub err)]) := by
  refine ⟨_, _, Main_eq run t0, rfl, ?_, ?_⟩
  · intro herr
    rw [herr]
  · intro err herr
    rw [herr]

/-- C11 at a `win32.Main` that runs its callback once and returns an error. -/
theorem Main_trace_witness :
    Main ⟨1, some ⟨"no display"⟩⟩ callF [] =
      [Event.setTheApp App.theApp, Event.initScreens, Event.win32Main,
        Event.call App.theApp, Event.win32Return (some ⟨"no display"⟩),
        Event.call (App.Stub ⟨"no display"⟩)] := by
  obtain ⟨during, after, h1, h2, -, h4⟩ := Main_trace ⟨1, some ⟨"no display"⟩⟩ []
  rw [h1, h2, h4 ⟨"no display"⟩ rfl]
  rfl

end windriver
